import Mathlib

/-!
Verification of the AuthorKit serverless API security layer.

This file gives a shallow embedding of the JavaScript code in
`src/api/_lib/security.js`, `src/api/validate-license.js`,
`src/api/activate-license.js` and `src/api/webhooks/lemon-squeezy.js`,
and proves or refutes the specified properties about it.

Modelling conventions:
* A JavaScript string is modelled as a `List Nat` of its UTF-16 code units
  (`Str`). `codes` converts a Lean string literal.
* JavaScript runtime values occurring in request payloads and JSON are
  modelled by the inductive `JsVal`; JavaScript objects are association
  lists in insertion order (the enumeration order of string keys).
* Code that can throw (`ReferenceError` on an undeclared identifier,
  `TypeError` on calling a method of a non-object, `JSON.parse` failures)
  is modelled in the `Except JsError` monad; a surrounding `try/catch` is
  modelled by matching on the `Except`.
* Node builtins that the repository code calls but does not define
  (`crypto.createHmac(...).digest('hex')`, `Buffer` base64 conversion,
  `JSON.stringify` / `JSON.parse`) are passed in as explicit function
  parameters; theorems assume only the properties of those builtins that
  are actually used (e.g. base64 round-trips and its alphabet has no '.').
-/

namespace AuthorKit

/-- JavaScript strings as lists of UTF-16 code units. -/
abbrev Str := List Nat

/-- Code-unit list of a Lean string literal (all literals used are ASCII/BMP). -/
def codes (s : String) : Str := s.toList.map Char.toNat

/-- Model of `String.prototype.toLowerCase` on one ASCII code unit (the repository only
lowercases URLs and variant names; non-ASCII points are left unchanged by this
model, which is exact on the ASCII range). -/
def lowerCode (n : Nat) : Nat := if 65 ≤ n ∧ n ≤ 90 then n + 32 else n

/-- Model of `String.prototype.toLowerCase`. -/
def jsToLowerCase (s : Str) : Str := s.map lowerCode

/-- The code units removed by `String.prototype.trim` (WhiteSpace and
LineTerminator). -/
def isJsWhitespace (n : Nat) : Bool :=
  n = 9 ∨ n = 10 ∨ n = 11 ∨ n = 12 ∨ n = 13 ∨ n = 32 ∨ n = 160 ∨
  n = 0x1680 ∨ (0x2000 ≤ n ∧ n ≤ 0x200A) ∨ n = 0x2028 ∨ n = 0x2029 ∨
  n = 0x202F ∨ n = 0x205F ∨ n = 0x3000 ∨ n = 0xFEFF

/-- Model of `String.prototype.trim`. -/
def jsTrim (s : Str) : Str :=
  ((s.dropWhile isJsWhitespace).reverse.dropWhile isJsWhitespace).reverse

/-- Model of `.replace(/^https?:\/\//, '')` — strips one leading `http://` or
`https://` (case sensitive, as the regex has no `i` flag). -/
def stripScheme (s : Str) : Str :=
  if (codes "http://").isPrefixOf s then s.drop 7
  else if (codes "https://").isPrefixOf s then s.drop 8
  else s

/-- Model of `.replace(/^www\./, '')` — strips one leading `www.` (case sensitive). -/
def stripWww (s : Str) : Str :=
  if (codes "www.").isPrefixOf s then s.drop 4 else s

/-- Model of `.replace(/\/$/, '')` — strips one trailing slash. -/
def stripTrailingSlash (s : Str) : Str :=
  if s.getLast? = some 47 then s.dropLast else s

/-- The inline URL sanitization chain of `validateInput` for
`type: "url"` fields (security.js lines 159–164):
`value.replace(/^https?:\/\//,'').replace(/^www\./,'').replace(/\/$/,'').toLowerCase().trim()`. -/
def sanitizeUrlValue (s : Str) : Str :=
  jsTrim (jsToLowerCase (stripTrailingSlash (stripWww (stripScheme s))))

/-- JavaScript runtime values as they occur in request payloads and parsed
JSON. Numbers are modelled as integers (every number the code manipulates is
an integer timestamp, count or id below 2^53, where JS doubles are exact). -/
inductive JsVal where
  | undefined : JsVal
  | null : JsVal
  | bool : Bool → JsVal
  | num : Int → JsVal
  | str : Str → JsVal
  | arr : List JsVal → JsVal
  | obj : List (Str × JsVal) → JsVal

/-- JavaScript exceptions thrown by the modelled code. -/
inductive JsError where
  | referenceError : Str → JsError
  | typeError : Str → JsError
  | jsonError : JsError

/-- JavaScript truthiness of a value. -/
def truthy : JsVal → Bool
  | .undefined => false
  | .null => false
  | .bool b => b
  | .num n => n ≠ 0
  | .str s => s ≠ []
  | .arr _ => true
  | .obj _ => true

/-- Whether a value is a string (`typeof value === 'string'`). -/
def isStr : JsVal → Bool
  | .str _ => true
  | _ => false

/-- First binding of a key in an association list (JavaScript objects and
`Map`s have unique keys, so this is the binding). -/
def jsLookup {α : Type} (m : List (Str × α)) (k : Str) : Option α :=
  match m with
  | [] => none
  | (k', v) :: rest => if k' = k then some v else jsLookup rest k

/-- Property read `data[field]` on an object modelled as an association
list: `undefined` when the key is absent. -/
def jsGetObj (m : List (Str × JsVal)) (k : Str) : JsVal :=
  (jsLookup m k).getD .undefined

/-- Property/`Map` assignment: updates the first binding of the key in
place, or appends a new binding (JavaScript preserves insertion order). -/
def jsObjSet {α : Type} (m : List (Str × α)) (k : Str) (v : α) :
    List (Str × α) :=
  match m with
  | [] => [(k, v)]
  | (k', v') :: rest =>
    if k' = k then (k', v) :: rest else (k', v') :: jsObjSet rest k v

/-- Property access `base.key`: throws a `TypeError` on `null`/`undefined`,
returns `undefined` on other primitives, looks the key up on objects. -/
def jsGet (base : JsVal) (k : Str) : Except JsError JsVal :=
  match base with
  | .undefined => throw (.typeError k)
  | .null => throw (.typeError k)
  | .obj fields => pure (jsGetObj fields k)
  | _ => pure .undefined

/-- Optional chaining `base?.key`. -/
def jsGetOpt (base : JsVal) (k : Str) : Except JsError JsVal :=
  match base with
  | .undefined => pure .undefined
  | .null => pure .undefined
  | b => jsGet b k

/-- Model of `Array.prototype.some` with a callback that can throw. -/
def jsSome {α : Type} (p : α → Except JsError Bool) :
    List α → Except JsError Bool
  | [] => pure false
  | x :: xs => do if (← p x) then pure true else jsSome p xs

/-- Model of `Array.prototype.find` with a callback that can throw. -/
def jsFind {α : Type} (p : α → Except JsError Bool) :
    List α → Except JsError (Option α)
  | [] => pure none
  | x :: xs => do if (← p x) then pure (some x) else jsFind p xs

/-- Model of `String.prototype.split` on a one-code-unit separator. Like the
JavaScript builtin it never returns an empty list: `''.split('.') = ['']`,
and a trailing separator yields a trailing empty segment. -/
def jsSplit (sep : Nat) : Str → List Str
  | [] => [[]]
  | c :: rest =>
    if c = sep then [] :: jsSplit sep rest
    else
      match jsSplit sep rest with
      | s :: ss => (c :: s) :: ss
      | [] => [[c]]

/-- Decimal rendering of a number, for interpolated error messages. -/
def natCodes (n : Nat) : Str := codes (toString n)

/-! ## `validateInput` (security.js lines 109–183) -/

/-- The `type` tag of a schema rule; the repository only ever declares
`'string'` and `'url'`. -/
inductive FieldType where
  | string : FieldType
  | url : FieldType
deriving DecidableEq

/-- One schema entry of `validateInput`. `maxLength`/`minLength` are `0`
when undeclared — the source guards each with `rules.maxLength && …`, under
which the number `0` and `undefined` behave identically. `pattern` models
`rules.pattern` as an abstract total predicate (`RegExp.prototype.test`);
`dflt` models `rules.default` (`undefined` when undeclared). -/
structure FieldRules where
  type : FieldType
  required : Bool := false
  maxLength : Nat := 0
  minLength : Nat := 0
  pattern : Option (Str → Bool) := none
  dflt : JsVal := .undefined

/-- The expression `(!value || value.trim() === '')` of the required-field
check (security.js line 117): `value.trim()` throws a `TypeError` when
`value` is truthy but not a string. -/
def requiredBlank (value : JsVal) : Except JsError Bool :=
  if truthy value then
    match value with
    | .str s => .ok (decide (jsTrim s = ([] : Str)))
    | _ => .error (.typeError (codes "value.trim is not a function"))
  else .ok true

/-- The body of `validateInput`'s `for` loop for one schema field
(security.js lines 113–176). Returns the updated `(errors, sanitized)`
accumulators, or propagates the `TypeError` thrown by the required-field
check. -/
def processField (field : Str) (rules : FieldRules) (value : JsVal)
    (errors : List Str) (sanitized : List (Str × JsVal)) :
    Except JsError (List Str × List (Str × JsVal)) :=
  -- if (rules.required && (!value || value.trim() === ''))
  match (if rules.required then requiredBlank value else .ok false :
      Except JsError Bool) with
  | .error e => .error e
  | .ok true => .ok (errors ++ [field ++ codes " is required"], sanitized)
  | .ok false =>
    -- if (!value) { sanitized[field] = rules.default || null; continue }
    if ¬ truthy value then
      .ok (errors,
        jsObjSet sanitized field
          (if truthy rules.dflt then rules.dflt else .null))
    -- if (rules.type === 'string')
    else if rules.type = .string then
      match value with
      | .str s =>
        if rules.maxLength ≠ 0 ∧ s.length > rules.maxLength then
          .ok (errors ++ [field ++ codes " must be less than " ++
            natCodes rules.maxLength ++ codes " characters"], sanitized)
        else if rules.minLength ≠ 0 ∧ s.length < rules.minLength then
          .ok (errors ++ [field ++ codes " must be at least " ++
            natCodes rules.minLength ++ codes " characters"], sanitized)
        else
          match rules.pattern with
          | some p =>
            if ¬ p s then
              .ok (errors ++ [field ++ codes " has invalid format"], sanitized)
            else
              .ok (errors, jsObjSet sanitized field (.str (jsTrim s)))
          | none =>
            .ok (errors, jsObjSet sanitized field (.str (jsTrim s)))
      | _ => .ok (errors ++ [field ++ codes " must be a string"], sanitized)
    else
      -- if (rules.type === 'url'), inside try { … } catch: `value.replace`
      -- throws a TypeError on non-strings, caught by the local catch.
      match value with
      | .str s =>
        let cleaned := sanitizeUrlValue s
        if cleaned.length = 0 ∨ cleaned.length > 255 then
          .ok (errors ++ [field ++ codes " must be a valid URL"], sanitized)
        else
          .ok (errors, jsObjSet sanitized field (.str cleaned))
      | _ => .ok (errors ++ [field ++ codes " must be a valid URL"], sanitized)

/-- The `for (const [field, rules] of Object.entries(schema))` loop. -/
def validateLoop (data : List (Str × JsVal)) :
    List (Str × FieldRules) → List Str → List (Str × JsVal) →
    Except JsError (List Str × List (Str × JsVal))
  | [], errors, sanitized => pure (errors, sanitized)
  | (field, rules) :: rest, errors, sanitized => do
    let (errors', sanitized') ←
      processField field rules (jsGetObj data field) errors sanitized
    validateLoop data rest errors' sanitized'

/-- The result object of `validateInput`. -/
structure ValidationResult where
  isValid : Bool
  errors : List Str
  data : List (Str × JsVal)

/-- Model of `validateInput(data, schema)` (security.js lines 109–183). The result is
an `Except` because the required-field check can throw on truthy non-string
values; a thrown error propagates to the calling handler's `try/catch`. -/
def validateInput (data : List (Str × JsVal))
    (schema : List (Str × FieldRules)) : Except JsError ValidationResult := do
  let (errors, sanitized) ← validateLoop data schema [] []
  pure { isValid := errors.isEmpty, errors := errors, data := sanitized }

/-! ## `rateLimit` (security.js lines 64–104) -/

/-- One value of the `rateLimitStore` map. -/
structure RateRecord where
  count : Nat
  resetTime : Nat
deriving DecidableEq

/-- The object returned by `rateLimit`. `remaining` is an `Int` because the
source computes `maxRequests - count` with plain subtraction; `resetTime`
and `retryAfter` are only present on the deny branch. -/
structure RateLimitResult where
  allowed : Bool
  remaining : Int
  resetTime : Option Nat := none
  retryAfter : Option Nat := none
deriving DecidableEq

/-- The store as a `Map` in insertion order. -/
abbrev RateStore := List (Str × RateRecord)

/-- Model of `rateLimit(identifier, maxRequests, windowMs)` (security.js lines
66–104), with the module-level `rateLimitStore` and `Date.now()` made
explicit: the function maps the store before the call to the result object
and the store after the call. `now - windowMs` is natural subtraction; the
source computes it over timestamps far larger than any window, and for
`now < windowMs` both the JavaScript negative cutoff and the truncated 0
make `v.resetTime < cutoff` false. -/
def rateLimit (store : RateStore) (identifier : Str)
    (maxRequests : Nat := 10) (windowMs : Nat := 60000) (now : Nat) :
    RateLimitResult × RateStore :=
  let key := codes "ratelimit:" ++ identifier
  -- Clean up old entries
  let store :=
    if store.length > 10000 then
      let cutoff := now - windowMs
      store.filter (fun kv => ¬ kv.2.resetTime < cutoff)
    else store
  match jsLookup store key with
  | none =>
    ({ allowed := true, remaining := (maxRequests : Int) - 1 },
      jsObjSet store key { count := 1, resetTime := now + windowMs })
  | some record =>
    if now > record.resetTime then
      -- New window
      ({ allowed := true, remaining := (maxRequests : Int) - 1 },
        jsObjSet store key { count := 1, resetTime := now + windowMs })
    else if record.count ≥ maxRequests then
      -- Rate limit exceeded: retryAfter = Math.ceil((resetTime - now)/1000),
      -- with resetTime ≥ now on this branch.
      ({ allowed := false, remaining := 0, resetTime := some record.resetTime,
         retryAfter := some ((record.resetTime - now + 999) / 1000) }, store)
    else
      -- Increment counter
      ({ allowed := true,
         remaining := (maxRequests : Int) - ((record.count + 1) : Nat) },
        jsObjSet store key
          { count := record.count + 1, resetTime := record.resetTime })

/-! ## `generateSecureToken` / `verifySecureToken` (security.js 189–244) -/

/-- The Node builtins used by the token functions, passed explicitly:
`stringifyObj` is `JSON.stringify` on the data object, `parse` is
`JSON.parse`, `b64encode` is `Buffer.from(s).toString('base64')`,
`b64decode` is `Buffer.from(s, 'base64').toString('utf-8')` (total: Node
decodes leniently), and `hmacHex secret msg` is
`crypto.createHmac('sha256', secret).update(msg).digest('hex')`. -/
structure TokenPrims where
  stringifyObj : List (Str × JsVal) → Str
  parse : Str → Except Unit JsVal
  b64encode : Str → Str
  b64decode : Str → Str
  hmacHex : Str → Str → Str

/-- Model of `process.env.DOWNLOAD_TOKEN_SECRET || 'change-this-in-production'`. -/
def tokenSecret (secretEnv : Option Str) : Str :=
  match secretEnv with
  | some s => if s = [] then codes "change-this-in-production" else s
  | none => codes "change-this-in-production"

/-- The object spread `{ ...payload, exp: expiresAt }`: an existing `exp`
key keeps its position with the new value, otherwise `exp` is appended. -/
def jsSpreadSet (payload : List (Str × JsVal)) (k : Str) (v : JsVal) :
    List (Str × JsVal) :=
  match jsLookup payload k with
  | some _ => jsObjSet payload k v
  | none => payload ++ [(k, v)]

/-- Model of `generateSecureToken(payload, expiresIn)` (security.js lines 189–208). -/
def generateSecureToken (prims : TokenPrims) (secretEnv : Option Str)
    (payload : List (Str × JsVal)) (expiresIn : Nat := 3600) (now : Nat) :
    Str :=
  let secret := tokenSecret secretEnv
  let expiresAt := now + expiresIn * 1000
  let data := jsSpreadSet payload (codes "exp") (.num expiresAt)
  let dataString := prims.stringifyObj data
  let signature := prims.hmacHex secret dataString
  prims.b64encode dataString ++ codes "." ++ signature

/-- The object returned by `verifySecureToken`. -/
structure VerifyResult where
  valid : Bool
  error : Option Str := none
  data : Option JsVal := none

/-- The body of `verifySecureToken`'s `try` block. Early returns are
modelled as `.ok`; a thrown exception (`JSON.parse` failure, or property
access on a non-object parse result) as `.error`. -/
def verifyTokenTry (prims : TokenPrims) (secretEnv : Option Str)
    (token : Str) (now : Nat) : Except JsError VerifyResult := do
  let secret := tokenSecret secretEnv
  -- const [dataB64, signature] = token.split('.')
  let parts := jsSplit 46 token
  let dataB64 := (parts.get? 0).getD []
  let signature := (parts.get? 1).getD []
  -- if (!dataB64 || !signature): destructuring an absent element gives
  -- undefined; both undefined and '' are falsy.
  if parts.get? 0 = none ∨ dataB64 = [] ∨ parts.get? 1 = none ∨
      signature = [] then
    return { valid := false, error := some (codes "Invalid token format") }
  let dataString := prims.b64decode dataB64
  let data ←
    match prims.parse dataString with
    | .ok v => pure v
    | .error _ => throw .jsonError
  let expectedSignature := prims.hmacHex secret dataString
  if signature ≠ expectedSignature then
    return { valid := false, error := some (codes "Invalid signature") }
  -- if (data.exp && Date.now() > data.exp)
  let expVal ← jsGet data (codes "exp")
  let expired :=
    match expVal with
    | .num e => truthy (.num e) && decide ((now : Int) > e)
    | _ => false
  if expired then
    return { valid := false, error := some (codes "Token expired") }
  return { valid := true, data := some data }

/-- Model of `verifySecureToken(token)` (security.js lines 213–244): the `try` body
with its `catch` returning `'Token verification failed'`. -/
def verifySecureToken (prims : TokenPrims) (secretEnv : Option Str)
    (token : Str) (now : Nat) : VerifyResult :=
  match verifyTokenTry prims secretEnv token now with
  | .ok r => r
  | .error _ =>
    { valid := false, error := some (codes "Token verification failed") }

/-! ## Webhook handler (webhooks/lemon-squeezy.js) -/

/-- An HTTP response: `res.status(n).json(body)`. -/
structure HttpResponse where
  status : Nat
  body : JsVal

/-- The `message` of a thrown JavaScript error, used by the handlers'
development-mode 500 bodies. -/
def errMessage : JsError → Str
  | .referenceError n => n ++ codes " is not defined"
  | .typeError m => m
  | .jsonError => codes "Unexpected token in JSON"

/-- Strict equality of a switch/`===` scrutinee with a string literal. -/
def isCase (v : JsVal) (s : String) : Bool :=
  match v with
  | .str t => t = codes s
  | _ => false

/-- Stub `handleOrderCreated` (lemon-squeezy.js lines 165–176): logs
`data.id`, `data.attributes.user_email`,
`data.attributes.first_order_item?.product_name` and
`data.attributes.total_formatted`. -/
def handleOrderCreated (data : JsVal) : Except JsError Unit := do
  let _ ← jsGet data (codes "id")
  let attributes ← jsGet data (codes "attributes")
  let _ ← jsGet attributes (codes "user_email")
  let firstOrderItem ← jsGet attributes (codes "first_order_item")
  let _ ← jsGetOpt firstOrderItem (codes "product_name")
  let _ ← jsGet attributes (codes "total_formatted")
  pure ()

/-- Stub `handleOrderRefunded` (lines 178–187). -/
def handleOrderRefunded (data : JsVal) : Except JsError Unit := do
  let _ ← jsGet data (codes "id")
  let attributes ← jsGet data (codes "attributes")
  let _ ← jsGet attributes (codes "user_email")
  pure ()

/-- Stub `handleSubscriptionCreated` (lines 189–199). -/
def handleSubscriptionCreated (data : JsVal) : Except JsError Unit := do
  let _ ← jsGet data (codes "id")
  let attributes ← jsGet data (codes "attributes")
  let _ ← jsGet attributes (codes "user_email")
  let _ ← jsGet attributes (codes "product_name")
  let _ ← jsGet attributes (codes "status")
  pure ()

/-- Stub `handleSubscriptionUpdated` (lines 201–210). -/
def handleSubscriptionUpdated (data : JsVal) : Except JsError Unit := do
  let _ ← jsGet data (codes "id")
  let attributes ← jsGet data (codes "attributes")
  let _ ← jsGet attributes (codes "status")
  let _ ← jsGet attributes (codes "ends_at")
  pure ()

/-- Stub `handleSubscriptionCancelled` (lines 212–222). -/
def handleSubscriptionCancelled (data : JsVal) : Except JsError Unit := do
  let _ ← jsGet data (codes "id")
  let attributes ← jsGet data (codes "attributes")
  let _ ← jsGet attributes (codes "user_email")
  let _ ← jsGet attributes (codes "ends_at")
  pure ()

/-- Stub `handleSubscriptionResumed` (lines 224–232). -/
def handleSubscriptionResumed (data : JsVal) : Except JsError Unit := do
  let _ ← jsGet data (codes "id")
  let attributes ← jsGet data (codes "attributes")
  let _ ← jsGet attributes (codes "user_email")
  pure ()

/-- Stub `handleSubscriptionExpired` (lines 234–243). -/
def handleSubscriptionExpired (data : JsVal) : Except JsError Unit := do
  let _ ← jsGet data (codes "id")
  let attributes ← jsGet data (codes "attributes")
  let _ ← jsGet attributes (codes "user_email")
  pure ()

/-- Stub `handleSubscriptionPaymentSuccess` (lines 245–255). -/
def handleSubscriptionPaymentSuccess (data : JsVal) : Except JsError Unit := do
  let _ ← jsGet data (codes "id")
  let attributes ← jsGet data (codes "attributes")
  let _ ← jsGet attributes (codes "user_email")
  let _ ← jsGet attributes (codes "total_formatted")
  pure ()

/-- Stub `handleSubscriptionPaymentFailed` (lines 257–266). -/
def handleSubscriptionPaymentFailed (data : JsVal) : Except JsError Unit := do
  let _ ← jsGet data (codes "id")
  let attributes ← jsGet data (codes "attributes")
  let _ ← jsGet attributes (codes "user_email")
  pure ()

/-- Stub `handleLicenseKeyCreated` (lines 268–277). -/
def handleLicenseKeyCreated (data : JsVal) : Except JsError Unit := do
  let _ ← jsGet data (codes "id")
  let attributes ← jsGet data (codes "attributes")
  let _ ← jsGet attributes (codes "key")
  let _ ← jsGet attributes (codes "status")
  pure ()

/-- Stub `handleLicenseKeyUpdated` (lines 279–289). -/
def handleLicenseKeyUpdated (data : JsVal) : Except JsError Unit := do
  let _ ← jsGet data (codes "id")
  let attributes ← jsGet data (codes "attributes")
  let _ ← jsGet attributes (codes "status")
  let _ ← jsGet attributes (codes "activation_limit")
  let _ ← jsGet attributes (codes "activations_count")
  pure ()

/-- The part of the webhook `try` block after signature verification
(lemon-squeezy.js lines 83–144): `JSON.parse` the raw body, dispatch on
`event.meta?.event_name`, acknowledge with 200. -/
def processWebhookBody (parse : Str → Except Unit JsVal) (rawBody : Str) :
    Except JsError HttpResponse := do
  let event ←
    match parse rawBody with
    | .ok v => pure v
    | .error _ => throw .jsonError
  let meta ← jsGet event (codes "meta")
  let eventName ← jsGetOpt meta (codes "event_name")
  let eventData ← jsGet event (codes "data")
  if isCase eventName "order_created" then handleOrderCreated eventData
  else if isCase eventName "order_refunded" then handleOrderRefunded eventData
  else if isCase eventName "subscription_created" then
    handleSubscriptionCreated eventData
  else if isCase eventName "subscription_updated" then
    handleSubscriptionUpdated eventData
  else if isCase eventName "subscription_cancelled" then
    handleSubscriptionCancelled eventData
  else if isCase eventName "subscription_resumed" then
    handleSubscriptionResumed eventData
  else if isCase eventName "subscription_expired" then
    handleSubscriptionExpired eventData
  else if isCase eventName "subscription_payment_success" then
    handleSubscriptionPaymentSuccess eventData
  else if isCase eventName "subscription_payment_failed" then
    handleSubscriptionPaymentFailed eventData
  else if isCase eventName "license_key_created" then
    handleLicenseKeyCreated eventData
  else if isCase eventName "license_key_updated" then
    handleLicenseKeyUpdated eventData
  else pure ()
  return { status := 200,
           body := .obj [(codes "received", .bool true),
                         (codes "event", eventName)] }

/-- Body processing together with the handler's `catch` (lines 146–160):
an exception yields a 500 and a `webhook_processing_error` security event
(plus `error.message` in development). The second component is the list of
`logSecurityEvent` event names emitted. -/
def webhookContinue (parse : Str → Except Unit JsVal) (nodeEnv : Str)
    (rawBody : Str) : HttpResponse × List Str :=
  match processWebhookBody parse rawBody with
  | .ok r => (r, [])
  | .error e =>
    ({ status := 500,
       body := .obj ([(codes "error", .str (codes "Webhook processing failed"))]
         ++ (if nodeEnv = codes "development"
             then [(codes "message", .str (errMessage e))] else [])) },
     [codes "webhook_processing_error"])

/-- The webhook handler (lemon-squeezy.js lines 37–161), from the method
check onward. `xSignature` is `req.headers['x-signature']` (`none` when the
header is absent), `webhookSecret` is `process.env.LEMON_SQUEEZY_WEBHOOK_SECRET`,
`rawBody` the raw request body, and `parse`/`hmacHex` the `JSON.parse` and
`crypto` builtins. Returns the response and the `logSecurityEvent` names
emitted. -/
def lemonSqueezyHandler (method : Str) (xSignature : Option Str)
    (webhookSecret : Option Str) (nodeEnv : Str) (rawBody : Str)
    (parse : Str → Except Unit JsVal) (hmacHex : Str → Str → Str) :
    HttpResponse × List Str :=
  if method ≠ codes "POST" then
    ({ status := 405,
       body := .obj [(codes "error", .str (codes "Method not allowed"))] }, [])
  else
    -- if (!webhookSecret)
    match webhookSecret with
    | none =>
      ({ status := 500,
         body := .obj [(codes "error", .str (codes "Webhook not configured"))] },
       [codes "webhook_config_error"])
    | some secret =>
      if secret = [] then
        ({ status := 500,
           body := .obj [(codes "error", .str (codes "Webhook not configured"))] },
         [codes "webhook_config_error"])
      else
        -- if (signature) { verify } else { reject only in production }
        match xSignature with
        | some signature =>
          if signature ≠ [] then
            if signature ≠ hmacHex secret rawBody then
              ({ status := 401,
                 body := .obj [(codes "error", .str (codes "Invalid signature"))] },
               [codes "webhook_invalid_signature"])
            else webhookContinue parse nodeEnv rawBody
          else if nodeEnv = codes "production" then
            ({ status := 401,
               body := .obj [(codes "error", .str (codes "Missing signature"))] },
             [codes "webhook_missing_signature"])
          else webhookContinue parse nodeEnv rawBody
        | none =>
          if nodeEnv = codes "production" then
            ({ status := 401,
               body := .obj [(codes "error", .str (codes "Missing signature"))] },
             [codes "webhook_missing_signature"])
          else webhookContinue parse nodeEnv rawBody

/-! ## License endpoint handlers (validate-license.js, activate-license.js)

The outbound `fetch` to the payments provider is external I/O; its settled
result is passed in as a parameter (`none` models `!response.ok`). The
provider's `expires_at` date string is abstracted to its parsed timestamp
(`new Date(license.expires_at)`), `none` standing for a null/absent (falsy)
value; response bodies render it with `optNumVal`. -/

/-- Model of `String.prototype.includes` — substring search, used for
`variantName.toLowerCase().includes('agency')`. -/
def strIncludes (needle : Str) : Str → Bool
  | [] => needle.isPrefixOf []
  | c :: rest => needle.isPrefixOf (c :: rest) || strIncludes needle rest

/-- Truthiness of an environment variable (`undefined` or `''` are falsy). -/
def optTruthy (o : Option Str) : Bool :=
  match o with
  | some s => s ≠ []
  | none => false

/-- Render an optional timestamp into a response body. -/
def optNumVal (o : Option Nat) : JsVal :=
  match o with
  | some n => .num n
  | none => .null

/-- The license object of the provider's validate response as
`validate-license.js` reads it: `status`, `expires_at`, and
`meta?.active_sites` (a list of site URL strings in this handler). -/
structure VLicense where
  status : Str
  expiresAt : Option Nat
  metaActiveSites : Option (List Str)

/-- The top-level `meta` of the provider's validate response
(`lsData.meta || {}`). -/
structure ProviderMeta where
  variantName : Option Str := none
  customerName : Option Str := none
  customerEmail : Option Str := none

/-- The callback of `activeSites.some(site => …)` in `validate-license.js`
lines 168–175: it computes `cleanActiveSite` from the site string and then
evaluates `cleanActiveSite === cleanSiteUrl`. No binding named
`cleanSiteUrl` is declared anywhere in the file (the validated value is
bound as `site_url`), so the comparison throws a `ReferenceError`. -/
def validateSiteMatch (site : Str) : Except JsError Bool := do
  let cleanActiveSite :=
    jsToLowerCase (stripTrailingSlash (stripWww (stripScheme site)))
  let _ := cleanActiveSite
  throw (.referenceError (codes "cleanSiteUrl"))

/-- The schema literal of `validate-license.js` lines 58–69. -/
def validateLicenseSchema : List (Str × FieldRules) :=
  [(codes "license_key",
    { type := .string, required := true, maxLength := 500, minLength := 10 }),
   (codes "site_url", { type := .url, required := true })]

/-- The `try` block of the validate-license handler (validate-license.js
lines 56–197), after rate limiting: input validation, provider lookup,
status/expiry checks, tier derivation, and the site-activation scan.
Returns the response and emitted security-event names, or throws. -/
def validateLicenseCore (reqBody : List (Str × JsVal))
    (lsApiKey : Option Str) (providerResp : Option (VLicense × ProviderMeta))
    (now : Nat) : Except JsError (HttpResponse × List Str) := do
  let validation ← validateInput reqBody validateLicenseSchema
  if ¬ validation.isValid then
    return ({ status := 400,
              body := .obj [(codes "valid", .bool false),
                            (codes "message", .str (codes "Invalid input")),
                            (codes "errors", .arr (validation.errors.map .str))] },
            [codes "invalid_input"])
  if ¬ optTruthy lsApiKey then
    return ({ status := 500,
              body := .obj [(codes "valid", .bool false),
                (codes "message",
                 .str (codes "License validation service not configured"))] },
            [])
  match providerResp with
  | none =>
    return ({ status := 400,
              body := .obj [(codes "valid", .bool false),
                (codes "message", .str (codes "Invalid license key"))] }, [])
  | some (license, meta) =>
    if license.status ≠ codes "active" then
      return ({ status := 200,
                body := .obj [(codes "valid", .bool false),
                  (codes "message", .str (codes "License is " ++ license.status
                    ++ codes ". Please renew your subscription.")),
                  (codes "data", .obj [(codes "status", .str license.status),
                    (codes "expires_at", optNumVal license.expiresAt)])] }, [])
    let expired :=
      match license.expiresAt with
      | some t => decide (t < now)
      | none => false
    if expired then
      return ({ status := 200,
                body := .obj [(codes "valid", .bool false),
                  (codes "message",
                   .str (codes "License has expired. Please renew your subscription.")),
                  (codes "data", .obj [(codes "status", .str (codes "expired")),
                    (codes "expires_at", optNumVal license.expiresAt)])] }, [])
    let variantName := meta.variantName.getD []
    let isAgency := strIncludes (codes "agency") (jsToLowerCase variantName)
    let tier := if isAgency then codes "agency" else codes "pro"
    let maxActivations : Nat := if isAgency then 999999 else 1
    let activeSites := license.metaActiveSites.getD []
    let isSiteActivated ← jsSome validateSiteMatch activeSites
    let sitesRemaining : Nat :=
      if tier = codes "agency" then 999999
      else maxActivations - activeSites.length
    return ({ status := 200,
              body := .obj [(codes "valid", .bool true),
                (codes "message", .str (codes "License is valid")),
                (codes "data", .obj [(codes "tier", .str tier),
                  (codes "status", .str license.status),
                  (codes "expires_at", optNumVal license.expiresAt),
                  (codes "max_activations", .num maxActivations),
                  (codes "active_sites", .arr (activeSites.map .str)),
                  (codes "sites_remaining", .num sitesRemaining),
                  (codes "is_site_activated", .bool isSiteActivated),
                  (codes "customer_name", .str (meta.customerName.getD [])),
                  (codes "customer_email", .str (meta.customerEmail.getD []))])] },
            [])

/-- The validate-license handler (validate-license.js lines 21–215):
method check, rate limit, then the `try` body with its `catch` mapping any
thrown error to a 500. Returns the response, the emitted security-event
names, and the rate-limit store after the call. -/
def validateLicenseHandler (method : Str) (clientIp : Str)
    (store : RateStore) (reqBody : List (Str × JsVal)) (lsApiKey : Option Str)
    (providerResp : Option (VLicense × ProviderMeta)) (nodeEnv : Str)
    (now : Nat) : HttpResponse × List Str × RateStore :=
  if method = codes "OPTIONS" then
    ({ status := 200, body := .undefined }, [], store)
  else if method ≠ codes "POST" then
    ({ status := 405,
       body := .obj [(codes "valid", .bool false),
         (codes "message", .str (codes "Method not allowed"))] }, [], store)
  else
    let (rl, store') := rateLimit store clientIp 20 60000 now
    if ¬ rl.allowed then
      ({ status := 429,
         body := .obj [(codes "valid", .bool false),
           (codes "message", .str (codes "Too many requests. Please try again later.")),
           (codes "retryAfter",
            match rl.retryAfter with | some n => .num n | none => .undefined)] },
       [codes "rate_limit_exceeded"], store')
    else
      match validateLicenseCore reqBody lsApiKey providerResp now with
      | .ok (resp, events) => (resp, events, store')
      | .error e =>
        ({ status := 500,
           body := .obj ([(codes "valid", .bool false),
             (codes "message",
              .str (codes "Internal server error during license validation"))]
             ++ (if nodeEnv = codes "development"
                 then [(codes "error", .str (errMessage e))] else [])) },
         [codes "validation_error"], store')

/-- One element of `license.meta.active_sites` as `activate-license.js`
reads it: a site object with `url`, `name`, `activated_at`, `last_checked`. -/
structure ActiveSite where
  url : Str
  name : Str
  activatedAt : Str
  lastChecked : Str

/-- The license object of the provider's validate response as
`activate-license.js` reads it. -/
structure ALicense where
  status : Str
  expiresAt : Option Nat
  metaActiveSites : Option (List ActiveSite)

/-- The callback of `activeSites.find(site => …)` in `activate-license.js`
lines 158–165: computes `cleanActiveSite` from `site.url`, then evaluates
`cleanActiveSite === cleanSiteUrl`. As in `validate-license.js`, no binding
named `cleanSiteUrl` exists in the file (the validated value is bound as
`site_url`), so the comparison throws a `ReferenceError`. -/
def activateSiteMatch (site : ActiveSite) : Except JsError Bool := do
  let cleanActiveSite :=
    jsToLowerCase (stripTrailingSlash (stripWww (stripScheme site.url)))
  let _ := cleanActiveSite
  throw (.referenceError (codes "cleanSiteUrl"))

/-- The schema literal of `activate-license.js` lines 54–70. -/
def activateLicenseSchema : List (Str × FieldRules) :=
  [(codes "license_key",
    { type := .string, required := true, maxLength := 500, minLength := 10 }),
   (codes "site_url", { type := .url, required := true }),
   (codes "site_name",
    { type := .string, required := false, maxLength := 255 })]

/-- The `try` block of the activate-license handler (activate-license.js
lines 52–246), after rate limiting. `activateResp` is the settled result of
the outbound `/licenses/activate` call (`none` for `!ok`, otherwise the
optional `instance.id`). Template literals and the `newActivation` object
that mention the undeclared `cleanSiteUrl` are modelled as the
`ReferenceError` throws they are. -/
def activateLicenseCore (reqBody : List (Str × JsVal))
    (lsApiKey : Option Str) (providerResp : Option (ALicense × ProviderMeta))
    (activateResp : Option (Option Str)) (now : Nat) :
    Except JsError (HttpResponse × List Str) := do
  let validation ← validateInput reqBody activateLicenseSchema
  if ¬ validation.isValid then
    return ({ status := 400,
              body := .obj [(codes "success", .bool false),
                            (codes "message", .str (codes "Invalid input")),
                            (codes "errors", .arr (validation.errors.map .str))] },
            [codes "invalid_input"])
  let site_name := jsGetObj validation.data (codes "site_name")
  if ¬ optTruthy lsApiKey then
    return ({ status := 500,
              body := .obj [(codes "success", .bool false),
                (codes "message", .str (codes "License service not configured"))] },
            [])
  match providerResp with
  | none =>
    return ({ status := 400,
              body := .obj [(codes "success", .bool false),
                (codes "message", .str (codes "Invalid license key"))] }, [])
  | some (license, meta) =>
    if license.status ≠ codes "active" then
      return ({ status := 400,
                body := .obj [(codes "success", .bool false),
                  (codes "message", .str (codes "Cannot activate. License is "
                    ++ license.status ++ codes "."))] }, [])
    let expired :=
      match license.expiresAt with
      | some t => decide (t < now)
      | none => false
    if expired then
      return ({ status := 400,
                body := .obj [(codes "success", .bool false),
                  (codes "message", .str (codes "License has expired"))] }, [])
    let variantName := meta.variantName.getD []
    let isAgency := strIncludes (codes "agency") (jsToLowerCase variantName)
    let tier := if isAgency then codes "agency" else codes "pro"
    let maxActivations : Nat := if isAgency then 999999 else 1
    let activeSites := license.metaActiveSites.getD []
    let existingActivation ← jsFind activateSiteMatch activeSites
    match existingActivation with
    | some existing =>
      -- the 200 body's template literal reads `cleanSiteUrl`
      let alreadyOn ← (throw (.referenceError (codes "cleanSiteUrl")) :
        Except JsError Str)
      return ({ status := 200,
                body := .obj [(codes "success", .bool true),
                  (codes "message", .str (codes "License already activated on "
                    ++ alreadyOn)),
                  (codes "data", .obj [(codes "tier", .str tier),
                    (codes "activated_at", .str existing.activatedAt),
                    (codes "sites_remaining",
                     .num (if tier = codes "agency" then 999999
                           else maxActivations - activeSites.length))])] }, [])
    | none =>
      if tier = codes "pro" ∧ activeSites.length ≥ maxActivations then
        return ({ status := 400,
                  body := .obj [(codes "success", .bool false),
                    (codes "message",
                     .str (codes "Activation limit reached. Pro licenses can only be activated on "
                       ++ natCodes maxActivations
                       ++ codes " site(s). Please deactivate from another site first.")),
                    (codes "data", .obj [
                      (codes "max_activations", .num maxActivations),
                      (codes "active_sites",
                       .arr (activeSites.map (fun s => .str s.url))),
                      (codes "upgrade_url",
                       .str (codes "https://authorkit.pro/pricing"))])] }, [])
      -- const newActivation = { url: cleanSiteUrl, … }
      let newUrl ← (throw (.referenceError (codes "cleanSiteUrl")) :
        Except JsError Str)
      let newActivation : ActiveSite :=
        { url := newUrl,
          name := match site_name with | .str s => s | _ => newUrl,
          activatedAt := codes "now", lastChecked := codes "now" }
      let activeSites2 := activeSites ++ [newActivation]
      match activateResp with
      | none =>
        return ({ status := 500,
                  body := .obj [(codes "success", .bool false),
                    (codes "message", .str (codes "Failed to activate license"))] },
                [])
      | some instanceId =>
        return ({ status := 200,
                  body := .obj [(codes "success", .bool true),
                    (codes "message", .str (codes "License successfully activated on "
                      ++ newActivation.url)),
                    (codes "data", .obj [(codes "tier", .str tier),
                      (codes "activated_at", .str newActivation.activatedAt),
                      (codes "sites_remaining",
                       .num (if tier = codes "agency" then 999999
                             else maxActivations - activeSites2.length)),
                      (codes "expires_at", optNumVal license.expiresAt),
                      (codes "instance_id",
                       match instanceId with
                       | some i => .str i
                       | none => .undefined)])] }, [])

/-- The activate-license handler (activate-license.js lines 19–264):
method check, rate limit (`activate:` bucket, 10 per hour), then the `try`
body with its `catch` mapping any thrown error to a 500 plus an
`activation_error` security event. -/
def activateLicenseHandler (method : Str) (clientIp : Str)
    (store : RateStore) (reqBody : List (Str × JsVal)) (lsApiKey : Option Str)
    (providerResp : Option (ALicense × ProviderMeta))
    (activateResp : Option (Option Str)) (nodeEnv : Str) (now : Nat) :
    HttpResponse × List Str × RateStore :=
  if method = codes "OPTIONS" then
    ({ status := 200, body := .undefined }, [], store)
  else if method ≠ codes "POST" then
    ({ status := 405,
       body := .obj [(codes "success", .bool false),
         (codes "message", .str (codes "Method not allowed"))] }, [], store)
  else
    let (rl, store') :=
      rateLimit store (codes "activate:" ++ clientIp) 10 3600000 now
    if ¬ rl.allowed then
      ({ status := 429,
         body := .obj [(codes "success", .bool false),
           (codes "message",
            .str (codes "Too many activation attempts. Please try again later.")),
           (codes "retryAfter",
            match rl.retryAfter with | some n => .num n | none => .undefined)] },
       [codes "rate_limit_exceeded"], store')
    else
      match activateLicenseCore reqBody lsApiKey providerResp activateResp now with
      | .ok (resp, events) => (resp, events, store')
      | .error e =>
        ({ status := 500,
           body := .obj ([(codes "success", .bool false),
             (codes "message",
              .str (codes "Internal server error during license activation"))]
             ++ (if nodeEnv = codes "development"
                 then [(codes "error", .str (errMessage e))] else [])) },
         [codes "activation_error"], store')

/-! ## Claim C8 -/

/-- C8: with `maxRequests = 3` and `windowMs = 60000`, four immediate
successive rate-limit checks for the same identity (starting from an empty
store, all at the same `Date.now()`) return `allowed = true, true, true,
false`; the fourth result's `retryAfter` equals
`ceil((windowResetAt - now) / 1000)`, which is 60 and strictly positive. -/
theorem rateLimit_three_then_deny (identifier : Str) (now : Nat) :
    (rateLimit [] identifier 3 60000 now).1.allowed = true ∧
    (rateLimit (rateLimit [] identifier 3 60000 now).2
      identifier 3 60000 now).1.allowed = true ∧
    (rateLimit (rateLimit (rateLimit [] identifier 3 60000 now).2
      identifier 3 60000 now).2 identifier 3 60000 now).1.allowed = true ∧
    (rateLimit (rateLimit (rateLimit (rateLimit [] identifier 3 60000 now).2
      identifier 3 60000 now).2 identifier 3 60000 now).2
      identifier 3 60000 now).1 =
      { allowed := false, remaining := 0, resetTime := some (now + 60000),
        retryAfter := some (((now + 60000) - now + 999) / 1000) } ∧
    ((now + 60000) - now + 999) / 1000 = 60 := by
  have h1 : rateLimit [] identifier 3 60000 now =
      ({ allowed := true, remaining := 2 },
        [(codes "ratelimit:" ++ identifier,
          { count := 1, resetTime := now + 60000 })]) := by
    simp [rateLimit, jsLookup, jsObjSet]
  have hnot : ¬ now > now + 60000 := by omega
  have h2 : rateLimit [(codes "ratelimit:" ++ identifier,
        { count := 1, resetTime := now + 60000 })] identifier 3 60000 now =
      ({ allowed := true, remaining := 1 },
        [(codes "ratelimit:" ++ identifier,
          { count := 2, resetTime := now + 60000 })]) := by
    simp [rateLimit, jsLookup, jsObjSet, hnot]
  have h3 : rateLimit [(codes "ratelimit:" ++ identifier,
        { count := 2, resetTime := now + 60000 })] identifier 3 60000 now =
      ({ allowed := true, remaining := 0 },
        [(codes "ratelimit:" ++ identifier,
          { count := 3, resetTime := now + 60000 })]) := by
    simp [rateLimit, jsLookup, jsObjSet, hnot]
  have h4 : rateLimit [(codes "ratelimit:" ++ identifier,
        { count := 3, resetTime := now + 60000 })] identifier 3 60000 now =
      ({ allowed := false, remaining := 0, resetTime := some (now + 60000),
         retryAfter := some (((now + 60000) - now + 999) / 1000) },
        [(codes "ratelimit:" ++ identifier,
          { count := 3, resetTime := now + 60000 })]) := by
    simp [rateLimit, jsLookup, jsObjSet, hnot]
  rw [h1]
  rw [h2]
  rw [h3]
  rw [h4]
  refine ⟨rfl, rfl, rfl, rfl, ?_⟩
  omega

/-! ## Claim C10 -/

/-- On a required field whose value is truthy but not a string, the
`(!value || value.trim() === '')` check calls `.trim()` on the non-string
value and throws. -/
theorem processField_throws_on_nonstring_required (f : Str) (r : FieldRules)
    (v : JsVal) (errors : List Str) (san : List (Str × JsVal))
    (hreq : r.required = true) (ht : truthy v = true) (hs : isStr v = false) :
    processField f r v errors san =
      .error (.typeError (codes "value.trim is not a function")) := by
  cases v <;> simp_all [processField, requiredBlank, truthy, isStr]

/-- The field loop throws as soon as it reaches such a field (or earlier). -/
theorem validateLoop_error_of_nonstring_required
    (data : List (Str × JsVal)) (field : Str) (rules : FieldRules) (v : JsVal)
    (hreq : rules.required = true) (ht : truthy v = true)
    (hs : isStr v = false) (hv : jsLookup data field = some v) :
    ∀ (schema : List (Str × FieldRules)) (errors : List Str)
      (san : List (Str × JsVal)), (field, rules) ∈ schema →
      ∃ e, validateLoop data schema errors san = .error e := by
  intro schema
  induction schema with
  | nil => intro _ _ h; cases h
  | cons hd rest ih =>
    obtain ⟨f0, r0⟩ := hd
    intro errors san hmem
    rcases List.mem_cons.mp hmem with heq | hmem'
    · cases heq
      refine ⟨.typeError (codes "value.trim is not a function"), ?_⟩
      have hval : jsGetObj data field = v := by simp [jsGetObj, hv]
      show (processField field rules (jsGetObj data field) errors san >>=
        fun p => validateLoop data rest p.1 p.2) = _
      rw [hval, processField_throws_on_nonstring_required field rules v
        errors san hreq ht hs]
      rfl
    · rcases h : processField f0 r0 (jsGetObj data f0) errors san with e | p
      · refine ⟨e, ?_⟩
        show (processField f0 r0 (jsGetObj data f0) errors san >>=
          fun p => validateLoop data rest p.1 p.2) = _
        rw [h]; rfl
      · obtain ⟨e, he⟩ := ih p.1 p.2 hmem'
        refine ⟨e, ?_⟩
        show (processField f0 r0 (jsGetObj data f0) errors san >>=
          fun p => validateLoop data rest p.1 p.2) = _
        rw [h]
        exact he

/-- C10: `validateInput` is not total over arbitrary payloads — for every
schema containing a required field and every payload whose value for that
field is truthy but not a string, the required-field check invokes
`.trim()` on the non-string value and throws, so no
`{isValid, errors, data}` result is produced (the loop stops inside the
`Except` monad, leaving the remaining fields unvalidated). -/
theorem validateInput_throws_on_nonstring_required
    (schema : List (Str × FieldRules)) (data : List (Str × JsVal))
    (field : Str) (rules : FieldRules) (v : JsVal)
    (hmem : (field, rules) ∈ schema) (hreq : rules.required = true)
    (hv : jsLookup data field = some v) (ht : truthy v = true)
    (hs : isStr v = false) :
    ∃ e, validateInput data schema = .error e := by
  obtain ⟨e, he⟩ := validateLoop_error_of_nonstring_required data field rules v
    hreq ht hs hv schema [] [] hmem
  exact ⟨e, by simp [validateInput, he, Except.bind]⟩

/-- Concrete instance of C10: the activate-license schema with
`license_key: 5` in the payload. -/
theorem validateInput_throws_witness :
    ((codes "license_key",
      ({ type := .string, required := true, maxLength := 500,
         minLength := 10 } : FieldRules)) ∈ activateLicenseSchema) ∧
    ∃ e, validateInput [(codes "license_key", .num 5)]
      activateLicenseSchema = .error e := by
  constructor
  · simp [activateLicenseSchema]
  · exact validateInput_throws_on_nonstring_required activateLicenseSchema
      [(codes "license_key", .num 5)] (codes "license_key")
      { type := .string, required := true, maxLength := 500, minLength := 10 }
      (.num 5) (by simp [activateLicenseSchema]) rfl
      (by simp [jsLookup]) (by simp [truthy]) rfl

/-! ## Claim C9 -/

theorem jsLookup_jsObjSet_eq {α : Type} (m : List (Str × α)) (k : Str)
    (v : α) : jsLookup (jsObjSet m k v) k = some v := by
  induction m with
  | nil => simp [jsObjSet, jsLookup]
  | cons hd rest ih =>
    obtain ⟨k', v'⟩ := hd
    by_cases h : k' = k <;> simp [jsObjSet, jsLookup, h, ih]

theorem jsLookup_jsObjSet_ne {α : Type} (m : List (Str × α)) (k k' : Str)
    (v : α) (h : k' ≠ k) :
    jsLookup (jsObjSet m k v) k' = jsLookup m k' := by
  induction m with
  | nil =>
    have h1 : ¬ k = k' := fun h' => h h'.symm
    simp [jsObjSet, jsLookup, h1]
  | cons hd rest ih =>
    obtain ⟨k0, v0⟩ := hd
    by_cases h0 : k0 = k <;> by_cases h1 : k0 = k' <;>
      simp_all [jsObjSet, jsLookup]

/-- Every successful `processField` leaves the sanitized object unchanged
or assigns exactly its own field. -/
theorem processField_shape (f : Str) (r : FieldRules) (v : JsVal)
    (errors : List Str) (san : List (Str × JsVal))
    (p : List Str × List (Str × JsVal))
    (h : processField f r v errors san = .ok p) :
    p.2 = san ∨ ∃ w, p.2 = jsObjSet san f w := by
  simp only [processField] at h
  repeat' split at h
  all_goals cases h
  all_goals first
    | exact Or.inl rfl
    | exact Or.inr ⟨_, rfl⟩

/-- Absent optional field: `sanitized[field] = rules.default || null`,
i.e. the declared default if it is truthy and `null` otherwise. -/
theorem processField_absent_default (field : Str) (rules : FieldRules)
    (errors : List Str) (san : List (Str × JsVal))
    (hreq : rules.required = false) :
    processField field rules .undefined errors san =
      .ok (errors, jsObjSet san field
        (if truthy rules.dflt then rules.dflt else .null)) := by
  simp [processField, hreq, truthy]

/-- The loop never touches the binding of a field outside the schema. -/
theorem validateLoop_preserves_outside (data : List (Str × JsVal))
    (field : Str) :
    ∀ (schema : List (Str × FieldRules)) (errors : List Str)
      (san : List (Str × JsVal)) (e : List Str) (s : List (Str × JsVal)),
      field ∉ schema.map Prod.fst →
      validateLoop data schema errors san = .ok (e, s) →
      jsLookup s field = jsLookup san field := by
  intro schema
  induction schema with
  | nil =>
    intro errors san e s _ h
    cases h
    rfl
  | cons hd rest ih =>
    obtain ⟨f0, r0⟩ := hd
    intro errors san e s hnot h
    have hne : f0 ≠ field := by
      intro hcontra
      exact hnot (by simp [hcontra])
    have hnot' : field ∉ rest.map Prod.fst := by
      intro hcontra
      exact hnot (by simp [hcontra])
    rcases hp : processField f0 r0 (jsGetObj data f0) errors san with e0 | p
    · exfalso
      have : (processField f0 r0 (jsGetObj data f0) errors san >>=
          fun p => validateLoop data rest p.1 p.2) = .ok (e, s) := h
      rw [hp] at this
      cases this
    · have hrest : validateLoop data rest p.1 p.2 = .ok (e, s) := by
        have : (processField f0 r0 (jsGetObj data f0) errors san >>=
            fun p => validateLoop data rest p.1 p.2) = .ok (e, s) := h
        rw [hp] at this
        exact this
      have hstep := ih p.1 p.2 e s hnot' hrest
      rcases processField_shape f0 r0 (jsGetObj data f0) errors san p hp with
        hsame | ⟨w, hset⟩
      · rw [hstep, hsame]
      · rw [hstep, hset, jsLookup_jsObjSet_ne san f0 field w
          (fun hcontra => hne hcontra.symm)]

/-- C9 (amended): for a schema field that is not required and absent from
the payload, `validateInput` sets `data[field]` to `rules.default || null`:
the declared default when that default is truthy, and `null` when the
default is absent **or falsy** (`0`, `false`, `''`). -/
theorem validateInput_absent_default (schema : List (Str × FieldRules))
    (data : List (Str × JsVal)) (field : Str) (rules : FieldRules)
    (hmem : (field, rules) ∈ schema)
    (hnodup : (schema.map Prod.fst).Nodup)
    (hreq : rules.required = false)
    (habs : jsLookup data field = none) :
    ∀ r, validateInput data schema = .ok r →
      jsLookup r.data field =
        some (if truthy rules.dflt then rules.dflt else .null) := by
  suffices hloop : ∀ (sch : List (Str × FieldRules)) (errors : List Str)
      (san : List (Str × JsVal)) (e : List Str) (s : List (Str × JsVal)),
      (field, rules) ∈ sch → (sch.map Prod.fst).Nodup →
      validateLoop data sch errors san = .ok (e, s) →
      jsLookup s field =
        some (if truthy rules.dflt then rules.dflt else .null) by
    intro r hr
    rcases hl : validateLoop data schema [] [] with e0 | p
    · exfalso
      have : (validateLoop data schema [] [] >>= fun p =>
          pure { isValid := p.1.isEmpty, errors := p.1, data := p.2 }) =
          .ok r := hr
      rw [hl] at this
      cases this
    · have : (validateLoop data schema [] [] >>= fun p =>
          pure { isValid := p.1.isEmpty, errors := p.1, data := p.2 }) =
          .ok r := hr
      rw [hl] at this
      cases this
      exact hloop schema [] [] p.1 p.2 hmem hnodup hl
  intro sch
  induction sch with
  | nil => intro _ _ _ _ h; cases h
  | cons hd rest ih =>
    obtain ⟨f0, r0⟩ := hd
    intro errors san e s hmem0 hnodup0 h
    have hbind : (processField f0 r0 (jsGetObj data f0) errors san >>=
        fun p => validateLoop data rest p.1 p.2) = .ok (e, s) := h
    rcases List.mem_cons.mp hmem0 with heq | hmem'
    · cases heq
      have hval : jsGetObj data field = .undefined := by
        simp [jsGetObj, habs]
      rw [hval, processField_absent_default field rules errors san hreq]
        at hbind
      have hnot : field ∉ rest.map Prod.fst :=
        (List.nodup_cons.mp hnodup0).1
      have := validateLoop_preserves_outside data field rest errors
        (jsObjSet san field
          (if truthy rules.dflt then rules.dflt else .null)) e s hnot hbind
      rw [this, jsLookup_jsObjSet_eq]
    · rcases hp : processField f0 r0 (jsGetObj data f0) errors san with
        e0 | p
      · exfalso
        rw [hp] at hbind
        cases hbind
      · rw [hp] at hbind
        exact ih p.1 p.2 e s hmem' (List.nodup_cons.mp hnodup0).2 hbind

/-- Concrete instance of C9 (amended) at a truthy default. -/
theorem validateInput_absent_default_witness :
    validateInput [] [(codes "site_name",
      { type := .string, required := false,
        dflt := .str (codes "untitled") })] =
      .ok { isValid := true, errors := [],
            data := [(codes "site_name", .str (codes "untitled"))] } ∧
    jsLookup [(codes "site_name", .str (codes "untitled"))]
        (codes "site_name") =
      some (if truthy (.str (codes "untitled")) then
        JsVal.str (codes "untitled") else .null) := by
  refine ⟨rfl, ?_⟩
  exact validateInput_absent_default
    [(codes "site_name",
      { type := .string, required := false,
        dflt := .str (codes "untitled") })]
    [] (codes "site_name")
    { type := .string, required := false, dflt := .str (codes "untitled") }
    (List.Mem.head _) (by simp) rfl rfl
    { isValid := true, errors := [],
      data := [(codes "site_name", .str (codes "untitled"))] } rfl

/-- Counterexample to C9 as stated: a declared but falsy default (the empty
string) is **not** copied into `data[field]` — `rules.default || null`
evaluates to `null`. -/
theorem validateInput_falsy_default_counterexample :
    validateInput [] [(codes "site_name",
      { type := .string, required := false, dflt := .str [] })] =
      .ok { isValid := true, errors := [],
            data := [(codes "site_name", .null)] } ∧
    jsGetObj [(codes "site_name", .null)] (codes "site_name") = .null ∧
    JsVal.null ≠ JsVal.str [] := by
  refine ⟨rfl, rfl, ?_⟩
  intro h
  cases h

/-! ## Claim C3 -/

theorem lowerCode_idem (n : Nat) : lowerCode (lowerCode n) = lowerCode n := by
  simp only [lowerCode]
  repeat' split
  all_goals omega

theorem isJsWhitespace_lowerCode (n : Nat) :
    isJsWhitespace (lowerCode n) = isJsWhitespace n := by
  simp only [lowerCode]
  split
  · simp only [isJsWhitespace, decide_eq_decide]
    omega
  · rfl

theorem jsToLowerCase_idem (s : Str) :
    jsToLowerCase (jsToLowerCase s) = jsToLowerCase s := by
  induction s with
  | nil => rfl
  | cons a t ih => simp [jsToLowerCase, lowerCode_idem] at ih ⊢

theorem dropWhile_jsToLowerCase (l : Str) :
    List.dropWhile isJsWhitespace (jsToLowerCase l) =
      jsToLowerCase (List.dropWhile isJsWhitespace l) := by
  induction l with
  | nil => rfl
  | cons a t ih =>
    simp only [jsToLowerCase, List.map_cons, List.dropWhile_cons,
      isJsWhitespace_lowerCode]
    split
    · exact ih
    · rfl

theorem jsToLowerCase_reverse (l : Str) :
    jsToLowerCase l.reverse = (jsToLowerCase l).reverse := by
  simp [jsToLowerCase, List.map_reverse]

theorem jsToLowerCase_jsTrim (s : Str) :
    jsToLowerCase (jsTrim s) = jsTrim (jsToLowerCase s) := by
  unfold jsTrim
  rw [jsToLowerCase_reverse, ← dropWhile_jsToLowerCase,
    jsToLowerCase_reverse, ← dropWhile_jsToLowerCase]

theorem dropWhile_jsTrim (s : Str) :
    List.dropWhile isJsWhitespace (jsTrim s) = jsTrim s := by
  cases hz : jsTrim s with
  | nil => rfl
  | cons b t =>
    have hpre : jsTrim s <+:
        List.dropWhile isJsWhitespace s := by
      have : jsTrim s =
          List.rdropWhile isJsWhitespace
            (List.dropWhile isJsWhitespace s) := rfl
      rw [this]
      exact List.rdropWhile_prefix _ _
    rw [hz] at hpre
    obtain ⟨r, hr⟩ := hpre
    have hA : List.dropWhile isJsWhitespace
        (List.dropWhile isJsWhitespace s) =
        List.dropWhile isJsWhitespace s :=
      List.dropWhile_idempotent _ _
    rw [← hr] at hA
    have hcons : List.dropWhile isJsWhitespace (b :: (t ++ r)) =
        b :: (t ++ r) := by simpa using hA
    have hpb : isJsWhitespace b = false := by
      by_contra hpb'
      have hpb'' : isJsWhitespace b = true := by
        cases h : isJsWhitespace b
        · exact absurd h hpb'
        · rfl
      rw [List.dropWhile_cons, if_pos (by simp [hpb''])] at hcons
      have hlen := congrArg List.length hcons
      have hle := (List.dropWhile_suffix (l := t ++ r) isJsWhitespace).length_le
      simp [List.length_append] at hlen hle
      omega
    simp [List.dropWhile_cons, hpb]

theorem jsTrim_idem (s : Str) : jsTrim (jsTrim s) = jsTrim s := by
  have h1 : jsTrim (jsTrim s) =
      List.rdropWhile isJsWhitespace
        (List.dropWhile isJsWhitespace (jsTrim s)) := rfl
  rw [h1, dropWhile_jsTrim]
  have h2 : jsTrim s =
      List.rdropWhile isJsWhitespace
        (List.dropWhile isJsWhitespace s) := rfl
  rw [h2, List.rdropWhile_idempotent]

/-- C3 (amended): the URL sanitization is idempotent on exactly the inputs
whose sanitized form has nothing left to strip — when `sanitize(u)` does not
start with `http://`, `https://` or `www.` and does not end with `/`,
then `sanitize(sanitize(u)) = sanitize(u)`. (The output is always lowercase
and trimmed, so only the strip steps can make a second pass differ.) -/
theorem sanitizeUrl_idempotent_of_stripped (u : Str)
    (h1 : ¬ (codes "http://").isPrefixOf (sanitizeUrlValue u) = true)
    (h2 : ¬ (codes "https://").isPrefixOf (sanitizeUrlValue u) = true)
    (h3 : ¬ (codes "www.").isPrefixOf (sanitizeUrlValue u) = true)
    (h4 : (sanitizeUrlValue u).getLast? ≠ some 47) :
    sanitizeUrlValue (sanitizeUrlValue u) = sanitizeUrlValue u := by
  have hscheme : stripScheme (sanitizeUrlValue u) = sanitizeUrlValue u := by
    simp [stripScheme, h1, h2]
  have hwww : stripWww (sanitizeUrlValue u) = sanitizeUrlValue u := by
    simp [stripWww, h3]
  have hslash : stripTrailingSlash (sanitizeUrlValue u) =
      sanitizeUrlValue u := by
    simp [stripTrailingSlash, h4]
  show jsTrim (jsToLowerCase (stripTrailingSlash (stripWww
    (stripScheme (sanitizeUrlValue u))))) = sanitizeUrlValue u
  rw [hscheme, hwww, hslash]
  have hlow : jsToLowerCase (sanitizeUrlValue u) = sanitizeUrlValue u := by
    show jsToLowerCase (jsTrim (jsToLowerCase
      (stripTrailingSlash (stripWww (stripScheme u))))) = _
    rw [jsToLowerCase_jsTrim, jsToLowerCase_idem]
    rfl
  rw [hlow]
  show jsTrim (jsTrim (jsToLowerCase
    (stripTrailingSlash (stripWww (stripScheme u))))) = _
  rw [jsTrim_idem]
  rfl

/-- Witness for the amended C3 at a concrete input. -/
theorem sanitizeUrl_idempotent_witness :
    sanitizeUrlValue (sanitizeUrlValue (codes "https://www.Example.com/")) =
      sanitizeUrlValue (codes "https://www.Example.com/") := by
  apply sanitizeUrl_idempotent_of_stripped
  · decide
  · decide
  · decide
  · decide

/-- Counterexample to C3 as stated: sanitization is **not** idempotent for
every input. `"WWW.Example.com"` sanitizes to `"www.example.com"` (the
case-sensitive `/^www\./` does not match before lowercasing), and a second
pass strips the now-lowercase `www.` to give `"example.com"`. -/
theorem sanitizeUrl_not_idempotent_counterexample :
    sanitizeUrlValue (codes "WWW.Example.com") = codes "www.example.com" ∧
    sanitizeUrlValue (sanitizeUrlValue (codes "WWW.Example.com")) =
      codes "example.com" ∧
    sanitizeUrlValue (sanitizeUrlValue (codes "WWW.Example.com")) ≠
      sanitizeUrlValue (codes "WWW.Example.com") := by
  refine ⟨by decide, by decide, by decide⟩

/-! ## Claim C2 -/

@[simp]
theorem except_bind_ok {α β ε : Type} (a : α) (f : α → Except ε β) :
    (Except.ok a >>= f) = f a := rfl

@[simp]
theorem except_bind_error {α β ε : Type} (e : ε) (f : α → Except ε β) :
    ((Except.error e : Except ε α) >>= f) = .error e := rfl

theorem validateSiteMatch_eq (site : Str) :
    validateSiteMatch site = .error (.referenceError (codes "cleanSiteUrl")) :=
  rfl

/-- Field read on a response body. -/
def bodyGet (r : HttpResponse) (k : String) : JsVal :=
  match r.body with
  | .obj fields => jsGetObj fields (codes k)
  | _ => .undefined

/-- With a non-empty `active_sites` list, the site-match callback throws on
its first evaluation and the whole `try` body of the validate-license
handler errors out. -/
theorem validateLicenseCore_error (reqBody : List (Str × JsVal))
    (lsApiKey : Option Str) (license : VLicense) (meta : ProviderMeta)
    (now : Nat) (vr : ValidationResult)
    (hv : validateInput reqBody validateLicenseSchema = .ok vr)
    (hvv : vr.isValid = true)
    (hkey : optTruthy lsApiKey = true)
    (hstatus : license.status = codes "active")
    (hexp : ∀ t, license.expiresAt = some t → ¬ t < now)
    (site : Str) (sites : List Str)
    (hsites : license.metaActiveSites = some (site :: sites)) :
    validateLicenseCore reqBody lsApiKey (some (license, meta)) now =
      .error (.referenceError (codes "cleanSiteUrl")) := by
  unfold validateLicenseCore
  rw [hv]
  simp only [except_bind_ok, hvv, hkey, hstatus, hsites]
  rcases hE : license.expiresAt with _ | t
  · simp [jsSome, validateSiteMatch_eq]
  · have hnot := hexp t hE
    simp [jsSome, validateSiteMatch_eq, hnot]

/-- The `valid: true` success envelope of the validate-license `try` body
is reachable only when the provider reported no active sites. -/
theorem validateLicenseCore_valid_true_empty (reqBody : List (Str × JsVal))
    (lsApiKey : Option Str) (providerResp : Option (VLicense × ProviderMeta))
    (now : Nat) (r : HttpResponse) (evs : List Str)
    (h : validateLicenseCore reqBody lsApiKey providerResp now = .ok (r, evs))
    (hst : r.status = 200) (hvt : bodyGet r "valid" = .bool true) :
    ∀ license meta, providerResp = some (license, meta) →
      license.metaActiveSites.getD [] = [] := by
  intro lic met heq
  subst heq
  rcases hAS : lic.metaActiveSites with _ | l
  · simp [hAS]
  · rcases l with _ | ⟨s0, srest⟩
    · simp [hAS]
    · exfalso
      unfold validateLicenseCore at h
      rcases hvi : validateInput reqBody validateLicenseSchema with e | vr <;>
        rw [hvi] at h
      · simp at h
      · simp only [except_bind_ok] at h
        rw [hAS] at h
        simp only [Option.getD, jsSome, validateSiteMatch_eq,
          except_bind_error] at h
        repeat' split at h
        all_goals (try cases h)
        all_goals simp_all [bodyGet, jsGetObj, jsLookup, codes]

/-- C2: whenever the payments provider reports a non-empty `active_sites`
list for an otherwise passing request (POST, rate limit allows, input
valid, API key configured, license active and unexpired), the site-match
predicate dereferences the undeclared identifier `cleanSiteUrl`, the
thrown `ReferenceError` reaches the handler's `catch`, and the response is
HTTP 500 (with a `validation_error` security event). Moreover the
`valid: true` success envelope is reachable — for any provider response —
only when `active_sites` is empty. -/
theorem validateLicenseHandler_refError_500 (clientIp : Str)
    (store : RateStore) (reqBody : List (Str × JsVal))
    (lsApiKey : Option Str) (license : VLicense) (meta : ProviderMeta)
    (nodeEnv : Str) (now : Nat) (vr : ValidationResult)
    (hv : validateInput reqBody validateLicenseSchema = .ok vr)
    (hvv : vr.isValid = true)
    (hkey : optTruthy lsApiKey = true)
    (hstatus : license.status = codes "active")
    (hexp : ∀ t, license.expiresAt = some t → ¬ t < now)
    (site : Str) (sites : List Str)
    (hsites : license.metaActiveSites = some (site :: sites))
    (hrl : (rateLimit store clientIp 20 60000 now).1.allowed = true) :
    (validateLicenseHandler (codes "POST") clientIp store reqBody lsApiKey
        (some (license, meta)) nodeEnv now).1.status = 500 ∧
    (validateLicenseHandler (codes "POST") clientIp store reqBody lsApiKey
        (some (license, meta)) nodeEnv now).2.1 =
      [codes "validation_error"] ∧
    (∀ (providerResp : Option (VLicense × ProviderMeta))
        (r : HttpResponse) (evs : List Str) (st : RateStore),
      validateLicenseHandler (codes "POST") clientIp store reqBody lsApiKey
          providerResp nodeEnv now = (r, evs, st) →
      r.status = 200 → bodyGet r "valid" = .bool true →
      ∀ lic met, providerResp = some (lic, met) →
        lic.metaActiveSites.getD [] = []) := by
  have hcore := validateLicenseCore_error reqBody lsApiKey license meta now
    vr hv hvv hkey hstatus hexp site sites hsites
  have hmain : validateLicenseHandler (codes "POST") clientIp store reqBody
      lsApiKey (some (license, meta)) nodeEnv now =
      ({ status := 500,
         body := .obj ([(codes "valid", .bool false),
           (codes "message",
            .str (codes "Internal server error during license validation"))]
           ++ (if nodeEnv = codes "development"
               then [(codes "error",
                 .str (errMessage (.referenceError (codes "cleanSiteUrl"))))]
               else [])) },
       [codes "validation_error"],
       (rateLimit store clientIp 20 60000 now).2) := by
    unfold validateLicenseHandler
    rw [if_neg (by decide), if_neg (by decide)]
    rcases hcall : rateLimit store clientIp 20 60000 now with ⟨rl, store2⟩
    have hrl' : rl.allowed = true := by rw [hcall] at hrl; exact hrl
    simp [hrl', hcore]
  refine ⟨by rw [hmain], by rw [hmain], ?_⟩
  intro providerResp r evs st hh hst hvt
  have hcore2 : ∀ cr, validateLicenseCore reqBody lsApiKey providerResp now =
      .ok cr → cr.1 = r →
      ∀ lic met, providerResp = some (lic, met) →
        lic.metaActiveSites.getD [] = [] := by
    intro cr hc hr1 lic met heq
    exact validateLicenseCore_valid_true_empty reqBody lsApiKey providerResp
      now cr.1 cr.2 (by rw [hc]) (hr1 ▸ hst) (hr1 ▸ hvt) lic met heq
  revert hh
  unfold validateLicenseHandler
  rw [if_neg (by decide), if_neg (by decide)]
  rcases hcall : rateLimit store clientIp 20 60000 now with ⟨rl, store2⟩
  have hrl' : rl.allowed = true := by rw [hcall] at hrl; exact hrl
  simp only [hrl', Bool.not_eq_true, ite_false]
  rcases hc : validateLicenseCore reqBody lsApiKey providerResp now with
    e | cr
  · simp only []
    intro hh
    have : r.status = 500 := by
      have := congrArg (fun t => t.1.status) hh
      simpa using this.symm
    rw [hst] at this
    cases this
  · simp only []
    intro hh
    have hr1 : cr.1 = r := by
      have := congrArg (fun t => t.1) hh
      simpa using this
    exact hcore2 cr hc hr1

/-- Witness for C2 at a concrete request: an active, unexpired license with
one active site yields a 500 and a `validation_error` event. -/
theorem validateLicenseHandler_refError_witness :
    (validateLicenseHandler (codes "POST") (codes "1.2.3.4") []
        [(codes "license_key", .str (codes "KEY-1234567890")),
         (codes "site_url", .str (codes "https://example.com"))]
        (some (codes "k"))
        (some ({ status := codes "active", expiresAt := none,
                 metaActiveSites := some [codes "https://example.com"] }, {}))
        (codes "production") 0).1.status = 500 ∧
    (validateLicenseHandler (codes "POST") (codes "1.2.3.4") []
        [(codes "license_key", .str (codes "KEY-1234567890")),
         (codes "site_url", .str (codes "https://example.com"))]
        (some (codes "k"))
        (some ({ status := codes "active", expiresAt := none,
                 metaActiveSites := some [codes "https://example.com"] }, {}))
        (codes "production") 0).2.1 = [codes "validation_error"] := by
  have h := validateLicenseHandler_refError_500 (codes "1.2.3.4") []
    [(codes "license_key", .str (codes "KEY-1234567890")),
     (codes "site_url", .str (codes "https://example.com"))]
    (some (codes "k"))
    { status := codes "active", expiresAt := none,
      metaActiveSites := some [codes "https://example.com"] } {}
    (codes "production") 0
    { isValid := true, errors := [],
      data := [(codes "license_key", .str (codes "KEY-1234567890")),
               (codes "site_url", .str (codes "example.com"))] }
    rfl rfl rfl rfl (by intro t ht; cases ht)
    (codes "https://example.com") [] rfl rfl
  exact ⟨h.1, h.2.1⟩

/-! ## Claim C1 -/

/-- C1 (failing input): a POST `/activate-license` request with an active,
unexpired `pro` license (`max_activations = 1`) whose provider metadata
already lists one activated site. The claim (and spec scenario) expect
HTTP 400 with `data.max_activations = 1`; the code instead evaluates the
`activeSites.find` callback, which dereferences the undeclared identifier
`cleanSiteUrl` (activate-license.js line 164), so the `ReferenceError`
reaches the `catch` and the handler responds HTTP 500 with an
`activation_error` security event. The 400 activation-limit branch is dead
code for `pro` licenses: it requires a non-empty `active_sites`, and any
non-empty list already makes the `find` callback throw. -/
theorem activateLicense_at_ceiling_returns_500 :
    (activateLicenseHandler (codes "POST") (codes "1.2.3.4") []
        [(codes "license_key", .str (codes "KEY-1234567890")),
         (codes "site_url", .str (codes "https://new-site.com"))]
        (some (codes "k"))
        (some ({ status := codes "active", expiresAt := none,
                 metaActiveSites := some
                   [{ url := codes "existing-site.com",
                      name := codes "Existing",
                      activatedAt := codes "2024-01-01",
                      lastChecked := codes "2024-01-01" }] },
               { variantName := some (codes "AuthorKit Pro") }))
        (some (some (codes "inst-1"))) (codes "production") 0).1.status =
      500 ∧
    (activateLicenseHandler (codes "POST") (codes "1.2.3.4") []
        [(codes "license_key", .str (codes "KEY-1234567890")),
         (codes "site_url", .str (codes "https://new-site.com"))]
        (some (codes "k"))
        (some ({ status := codes "active", expiresAt := none,
                 metaActiveSites := some
                   [{ url := codes "existing-site.com",
                      name := codes "Existing",
                      activatedAt := codes "2024-01-01",
                      lastChecked := codes "2024-01-01" }] },
               { variantName := some (codes "AuthorKit Pro") }))
        (some (some (codes "inst-1"))) (codes "production") 0).2.1 =
      [codes "activation_error"] ∧
    (500 : Nat) ≠ 400 := by
  refine ⟨rfl, rfl, by decide⟩

/-! ## Claim C5 -/

theorem webhookContinue_events (parse : Str → Except Unit JsVal)
    (nodeEnv rawBody : Str) :
    (webhookContinue parse nodeEnv rawBody).2 = [] ∨
    (webhookContinue parse nodeEnv rawBody).2 =
      [codes "webhook_processing_error"] := by
  unfold webhookContinue
  rcases processWebhookBody parse rawBody with e | r
  · right; rfl
  · left; rfl

/-- C5 (amended): when the `X-Signature` header is absent and the webhook
secret is configured, the handler rejects with HTTP 401 and emits a
`webhook_missing_signature` security event **only** when
`NODE_ENV === 'production'`; for every other `NODE_ENV` value (including
unset or `development`) the request is allowed through to body processing
and **no** missing-signature audit event is emitted — the source logs a
security event only on the reject branch. -/
theorem webhookHandler_missing_signature (secret : Str)
    (nodeEnv rawBody : Str) (parse : Str → Except Unit JsVal)
    (hmacHex : Str → Str → Str) (hsec : secret ≠ []) :
    (nodeEnv = codes "production" →
      lemonSqueezyHandler (codes "POST") none (some secret) nodeEnv rawBody
          parse hmacHex =
        ({ status := 401,
           body := .obj [(codes "error", .str (codes "Missing signature"))] },
         [codes "webhook_missing_signature"])) ∧
    (nodeEnv ≠ codes "production" →
      lemonSqueezyHandler (codes "POST") none (some secret) nodeEnv rawBody
          parse hmacHex = webhookContinue parse nodeEnv rawBody ∧
      (codes "webhook_missing_signature") ∉
        (lemonSqueezyHandler (codes "POST") none (some secret) nodeEnv
          rawBody parse hmacHex).2) := by
  have hred : lemonSqueezyHandler (codes "POST") none (some secret) nodeEnv
      rawBody parse hmacHex =
      (if nodeEnv = codes "production" then
        ({ status := 401,
           body := .obj [(codes "error", .str (codes "Missing signature"))] },
         [codes "webhook_missing_signature"])
      else webhookContinue parse nodeEnv rawBody) := by
    unfold lemonSqueezyHandler
    rw [if_neg (by decide)]
    dsimp only
    rw [if_neg hsec]
  constructor
  · intro hprod
    rw [hred, if_pos hprod]
  · intro hnot
    rw [hred, if_neg hnot]
    refine ⟨rfl, ?_⟩
    rcases webhookContinue_events parse nodeEnv rawBody with h | h <;> rw [h]
    · exact List.not_mem_nil _
    · intro hmem
      rcases List.mem_singleton.mp hmem with h'
      have : codes "webhook_missing_signature" ≠
          codes "webhook_processing_error" := by decide
      exact this h'

/-- A `JSON.parse` oracle returning the empty object, for concrete runs. -/
def toyParseEmptyObj : Str → Except Unit JsVal := fun _ => .ok (.obj [])

/-- A trivial HMAC oracle for concrete runs in which no signature is ever
computed or compared. -/
def toyHmacUnused : Str → Str → Str := fun _ _ => []

/-- Witness for the amended C5: in production the request is rejected with
401 and the audit event is emitted. -/
theorem webhookHandler_missing_signature_witness :
    lemonSqueezyHandler (codes "POST") none (some (codes "s"))
        (codes "production") (codes "rawbody") toyParseEmptyObj toyHmacUnused =
      ({ status := 401,
         body := .obj [(codes "error", .str (codes "Missing signature"))] },
       [codes "webhook_missing_signature"]) :=
  (webhookHandler_missing_signature (codes "s") (codes "production")
    (codes "rawbody") toyParseEmptyObj toyHmacUnused (by decide)).1 rfl

/-- Counterexample to C5 as stated: with `NODE_ENV = 'development'` (the
explicit relaxed mode) and no `X-Signature`, the request is allowed through
and processed to a 200 acknowledgement, but **no** audit/security event is
emitted — the emitted event list is empty, contradicting the claim's
"emits an audit/security event in both the reject and the allow case". -/
theorem webhookHandler_allow_without_audit_counterexample :
    lemonSqueezyHandler (codes "POST") none (some (codes "s"))
        (codes "development") (codes "rawbody") toyParseEmptyObj toyHmacUnused =
      ({ status := 200,
         body := .obj [(codes "received", .bool true),
                       (codes "event", .undefined)] }, []) ∧
    codes "development" ≠ codes "production" := by
  refine ⟨rfl, by decide⟩

/-! ## Claim C4 -/

theorem mem_jsObjSet {α : Type} (m : List (Str × α)) (k : Str) (v : α)
    (x : Str × α) (h : x ∈ jsObjSet m k v) : x = (k, v) ∨ x ∈ m := by
  induction m with
  | nil => simpa [jsObjSet] using h
  | cons hd rest ih =>
    obtain ⟨k0, v0⟩ := hd
    by_cases h0 : k0 = k
    · simp only [jsObjSet, if_pos h0] at h
      rcases List.mem_cons.mp h with h' | h'
      · subst h0; exact Or.inl h'
      · exact Or.inr (List.mem_cons.mpr (Or.inr h'))
    · simp only [jsObjSet, if_neg h0] at h
      rcases List.mem_cons.mp h with h' | h'
      · exact Or.inr (List.mem_cons.mpr (Or.inl h'))
      · rcases ih h' with h'' | h''
        · exact Or.inl h''
        · exact Or.inr (List.mem_cons.mpr (Or.inr h''))

theorem jsLookup_mem {α : Type} (m : List (Str × α)) (k : Str) (v : α)
    (h : jsLookup m k = some v) : (k, v) ∈ m := by
  induction m with
  | nil => simp [jsLookup] at h
  | cons hd rest ih =>
    obtain ⟨k0, v0⟩ := hd
    by_cases h0 : k0 = k
    · rw [jsLookup, if_pos h0] at h
      cases h
      subst h0
      exact List.mem_cons_self _ _
    · rw [jsLookup, if_neg h0] at h
      exact List.mem_cons.mpr (Or.inr (ih h))

/-- C4 (amended): when a check runs on a store holding more than 10000
records, the sweep removes exactly the records with
`resetTime < now - windowMs`; so every record surviving the check has
`resetTime ≥ now - windowMs`. Records whose window elapsed less than
`windowMs` ago (`now - windowMs ≤ resetTime < now`) are expired yet
survive. -/
theorem rateLimit_sweep_bound (store : RateStore) (identifier : Str)
    (maxRequests windowMs now : Nat) (hbig : store.length > 10000) :
    ∀ k rec,
      (k, rec) ∈ (rateLimit store identifier maxRequests windowMs now).2 →
      ¬ rec.resetTime < now - windowMs := by
  intro k rec hmem
  unfold rateLimit at hmem
  rw [if_pos hbig] at hmem
  dsimp only at hmem
  set cutoff := now - windowMs with hcut
  set swept := store.filter
    (fun kv => ¬ kv.2.resetTime < cutoff) with hsw
  have hsweptMem : ∀ k' rec', (k', rec') ∈ swept →
      ¬ rec'.resetTime < cutoff := by
    intro k' rec' hm
    have := (List.mem_filter.mp hm).2
    simpa using this
  rcases hlk : jsLookup swept (codes "ratelimit:" ++ identifier) with
    _ | record
  · rw [hlk] at hmem
    dsimp only at hmem
    rcases mem_jsObjSet _ _ _ _ hmem with heq | hin
    · cases heq; simp; omega
    · exact hsweptMem k rec hin
  · rw [hlk] at hmem
    dsimp only at hmem
    by_cases hnew : now > record.resetTime
    · rw [if_pos hnew] at hmem
      rcases mem_jsObjSet _ _ _ _ hmem with heq | hin
      · cases heq; simp; omega
      · exact hsweptMem k rec hin
    · rw [if_neg hnew] at hmem
      by_cases hmax : record.count ≥ maxRequests
      · rw [if_pos hmax] at hmem
        exact hsweptMem k rec hmem
      · rw [if_neg hmax] at hmem
        rcases mem_jsObjSet _ _ _ _ hmem with heq | hin
        · cases heq
          have := hsweptMem _ _ (jsLookup_mem _ _ _ hlk)
          simpa using this
        · exact hsweptMem k rec hin

/-- A store of 10001 tracked identities: the caller's fresh record, a
record that expired one millisecond ago, and 9999 long-expired fillers. -/
def sweepDemoStore : RateStore :=
  (codes "ratelimit:caller", { count := 1, resetTime := 2000000 }) ::
  (codes "ratelimit:victim", { count := 1, resetTime := 999999 }) ::
  (List.range 9999).map
    (fun i => (codes "ratelimit:" ++ [i], { count := 1, resetTime := 0 }))

theorem sweepDemoStore_length : sweepDemoStore.length = 10001 := by
  simp [sweepDemoStore]

/-- Evaluation of the check on the oversized store: the sweep deletes the
9999 long-expired fillers but keeps the record that expired 1ms ago. -/
theorem sweepDemo_final_store :
    (rateLimit sweepDemoStore (codes "caller") 10 60000 1000000).2 =
      [(codes "ratelimit:caller", { count := 2, resetTime := 2000000 }),
       (codes "ratelimit:victim", { count := 1, resetTime := 999999 })] := by
  have hswept : sweepDemoStore.filter
      (fun kv => ¬ kv.2.resetTime < 1000000 - 60000) =
      [(codes "ratelimit:caller", { count := 1, resetTime := 2000000 }),
       (codes "ratelimit:victim", { count := 1, resetTime := 999999 })] := by
    unfold sweepDemoStore
    rw [List.filter_cons_of_pos (by decide),
        List.filter_cons_of_pos (by decide)]
    have hnil : List.filter
        (fun kv => ¬ kv.2.resetTime < 1000000 - 60000)
        ((List.range 9999).map
          (fun i => ((codes "ratelimit:" ++ [i] : Str),
            ({ count := 1, resetTime := 0 } : RateRecord)))) = [] := by
      rw [List.filter_eq_nil_iff]
      intro a ha
      rcases List.mem_map.mp ha with ⟨i, _, hi⟩
      subst hi
      simp
    rw [hnil]
  unfold rateLimit
  rw [if_pos (by rw [sweepDemoStore_length]; omega)]
  dsimp only
  rw [hswept]
  decide

/-- Witness for the amended C4: the record that expired 1ms before the
check survives it, and indeed satisfies the amended bound. -/
theorem rateLimit_sweep_bound_witness :
    ¬ (({ count := 1, resetTime := 999999 } : RateRecord).resetTime <
      1000000 - 60000) :=
  rateLimit_sweep_bound sweepDemoStore (codes "caller") 10 60000 1000000
    (by rw [sweepDemoStore_length]; omega)
    (codes "ratelimit:victim") { count := 1, resetTime := 999999 }
    (by rw [sweepDemo_final_store]; simp)

/-- Counterexample to C4 as stated: the sweep compares against
`cutoff = now - windowMs`, not `now`, so a record whose window elapsed
(resetTime `999999` < now `1000000`) survives a check that swept the
store (10001 > 10000 records). -/
theorem rateLimit_sweep_keeps_expired_counterexample :
    sweepDemoStore.length > 10000 ∧
    (rateLimit sweepDemoStore (codes "caller") 10 60000 1000000).2 =
      [(codes "ratelimit:caller", { count := 2, resetTime := 2000000 }),
       (codes "ratelimit:victim", { count := 1, resetTime := 999999 })] ∧
    (999999 : Nat) < 1000000 := by
  refine ⟨by rw [sweepDemoStore_length]; omega, sweepDemo_final_store,
    by omega⟩

/-! ## Claims C6 and C7: token round-trip and fail-closed verification -/

theorem jsSplit_ne_nil (sep : Nat) (l : Str) : jsSplit sep l ≠ [] := by
  induction l with
  | nil => simp [jsSplit]
  | cons c rest ih =>
    by_cases h : c = sep
    · simp [jsSplit, h]
    · simp only [jsSplit, if_neg h]
      rcases hs : jsSplit sep rest with _ | ⟨s, ss⟩
      · simp
      · simp

theorem jsSplit_no_sep (sep : Nat) (a : Str) (h : sep ∉ a) :
    jsSplit sep a = [a] := by
  induction a with
  | nil => rfl
  | cons c rest ih =>
    have hc : ¬ c = sep := fun hc => h (by simp [hc])
    have hrest : sep ∉ rest := fun hr => h (List.mem_cons.mpr (Or.inr hr))
    simp only [jsSplit, if_neg hc, ih hrest]

theorem jsSplit_append (sep : Nat) (a b : Str) (h : sep ∉ a) :
    jsSplit sep (a ++ sep :: b) = a :: jsSplit sep b := by
  induction a with
  | nil => simp [jsSplit]
  | cons c rest ih =>
    have hc : ¬ c = sep := fun hc => h (by simp [hc])
    have hrest : sep ∉ rest := fun hr => h (List.mem_cons.mpr (Or.inr hr))
    simp only [List.cons_append, jsSplit, if_neg hc, List.append_eq]
    rw [ih hrest]

theorem jsSplit_head (sep : Nat) (l : Str) :
    (jsSplit sep l).head? = some (l.takeWhile (fun c => ¬ c = sep)) := by
  induction l with
  | nil => rfl
  | cons c rest ih =>
    by_cases h : c = sep
    · simp [jsSplit, h, List.takeWhile_cons]
    · simp only [jsSplit, if_neg h]
      rcases hs : jsSplit sep rest with _ | ⟨s, ss⟩
      · exact absurd hs (jsSplit_ne_nil sep rest)
      · rw [hs] at ih
        simp only [List.head?] at ih
        cases ih
        simp [List.takeWhile_cons, h]

theorem takeWhile_sep_length_lt (sep : Nat) (l : Str) (h : sep ∈ l) :
    (l.takeWhile (fun c => ¬ c = sep)).length < l.length := by
  induction l with
  | nil => cases h
  | cons c rest ih =>
    by_cases hc : c = sep
    · simp [List.takeWhile_cons, hc]
    · have hrest : sep ∈ rest := by
        rcases List.mem_cons.mp h with h' | h'
        · exact absurd h'.symm hc
        · exact h'
      simp only [List.takeWhile_cons, decide_not]
      rw [if_pos (by simp [hc])]
      simpa using ih hrest

/-- Spreading `{ ...payload, exp: v }` appends when no `exp` key exists. -/
theorem jsSpreadSet_append (payload : List (Str × JsVal)) (k : Str)
    (v : JsVal) (h : jsLookup payload k = none) :
    jsSpreadSet payload k v = payload ++ [(k, v)] := by
  unfold jsSpreadSet
  rw [h]

theorem jsLookup_none_forall {α : Type} (m : List (Str × α)) (k : Str)
    (h : jsLookup m k = none) : ∀ kv ∈ m, kv.1 ≠ k := by
  induction m with
  | nil => intro kv hkv; cases hkv
  | cons hd rest ih =>
    obtain ⟨k0, v0⟩ := hd
    intro kv hkv
    by_cases h0 : k0 = k
    · rw [jsLookup, if_pos h0] at h; cases h
    · rw [jsLookup, if_neg h0] at h
      rcases List.mem_cons.mp hkv with h' | h'
      · subst h'; exact h0
      · exact ih h kv h'

theorem jsLookup_append_last {α : Type} (m : List (Str × α)) (k : Str)
    (v : α) (h : jsLookup m k = none) :
    jsLookup (m ++ [(k, v)]) k = some v := by
  induction m with
  | nil => simp [jsLookup]
  | cons hd rest ih =>
    obtain ⟨k0, v0⟩ := hd
    by_cases h0 : k0 = k
    · rw [jsLookup, if_pos h0] at h; cases h
    · rw [jsLookup, if_neg h0] at h
      simpa [jsLookup, h0] using ih h

/-- Removal of a key: `data` minus its `exp` binding. -/
def jsRemoveKey (m : List (Str × JsVal)) (k : Str) : List (Str × JsVal) :=
  m.filter (fun kv => ¬ kv.1 = k)

theorem jsRemoveKey_spread (payload : List (Str × JsVal)) (k : Str)
    (v : JsVal) (h : jsLookup payload k = none) :
    jsRemoveKey (jsSpreadSet payload k v) k = payload := by
  rw [jsSpreadSet_append payload k v h]
  unfold jsRemoveKey
  rw [List.filter_append]
  have h1 : payload.filter (fun kv => ¬ kv.1 = k) = payload := by
    rw [List.filter_eq_self]
    intro kv hkv
    simpa using jsLookup_none_forall payload k h kv hkv
  have h2 : List.filter (fun kv => ¬ kv.1 = k) [(k, v)] = [] := by
    simp
  rw [h1, h2, List.append_nil]

/-- C6 (amended): verifying a token signed with `expiresInSeconds = 3600`
under the same secret succeeds, and the recovered claims with the injected
`exp` removed deep-equal the original claims — for every claims map that
does **not** itself contain an `exp` key. The hypotheses state the
behaviour of the Node builtins at the values used: base64 round-trips and
its output is non-empty and `.`-free, `JSON.parse` inverts
`JSON.stringify` on the serialized data object, and the hex HMAC digest is
non-empty and `.`-free. -/
theorem token_roundtrip (prims : TokenPrims) (secretEnv : Option Str)
    (payload data : List (Str × JsVal)) (now : Nat)
    (hdata : data = jsSpreadSet payload (codes "exp")
      (.num ((now + 3600 * 1000 : Nat) : Int)))
    (hnoexp : jsLookup payload (codes "exp") = none)
    (hdec : prims.b64decode (prims.b64encode (prims.stringifyObj data)) =
      prims.stringifyObj data)
    (hparse : prims.parse (prims.stringifyObj data) = .ok (.obj data))
    (hencne : prims.b64encode (prims.stringifyObj data) ≠ [])
    (hencdot : 46 ∉ prims.b64encode (prims.stringifyObj data))
    (hsigne : prims.hmacHex (tokenSecret secretEnv)
      (prims.stringifyObj data) ≠ [])
    (hsigdot : 46 ∉ prims.hmacHex (tokenSecret secretEnv)
      (prims.stringifyObj data)) :
    verifySecureToken prims secretEnv
        (generateSecureToken prims secretEnv payload 3600 now) now =
      { valid := true, error := none, data := some (.obj data) } ∧
    jsRemoveKey data (codes "exp") = payload := by
  have hremove : jsRemoveKey data (codes "exp") = payload := by
    rw [hdata]
    exact jsRemoveKey_spread payload (codes "exp") _ hnoexp
  refine ⟨?_, hremove⟩
  have htok : generateSecureToken prims secretEnv payload 3600 now =
      prims.b64encode (prims.stringifyObj data) ++ codes "." ++
        prims.hmacHex (tokenSecret secretEnv) (prims.stringifyObj data) := by
    unfold generateSecureToken
    dsimp only
    rw [← hdata]
  rw [htok]
  have hsplit : jsSplit 46
      (prims.b64encode (prims.stringifyObj data) ++ codes "." ++
        prims.hmacHex (tokenSecret secretEnv) (prims.stringifyObj data)) =
      [prims.b64encode (prims.stringifyObj data),
       prims.hmacHex (tokenSecret secretEnv) (prims.stringifyObj data)] := by
    rw [List.append_assoc]
    have : codes "." ++ prims.hmacHex (tokenSecret secretEnv)
        (prims.stringifyObj data) =
        46 :: prims.hmacHex (tokenSecret secretEnv)
          (prims.stringifyObj data) := rfl
    rw [this, jsSplit_append 46 _ _ hencdot, jsSplit_no_sep 46 _ hsigdot]
  unfold verifySecureToken verifyTokenTry
  rw [hsplit]
  dsimp only [List.get?, Option.getD]
  rw [if_neg (by simp [hencne, hsigne]), hdec, hparse]
  simp only [pure_bind, except_bind_ok]
  rw [if_neg (fun hcontra => hcontra rfl)]
  have hget : jsGet (.obj data) (codes "exp") =
      pure (.num ((now + 3600 * 1000 : Nat) : Int)) := by
    have : jsGetObj data (codes "exp") =
        .num ((now + 3600 * 1000 : Nat) : Int) := by
      rw [hdata, jsSpreadSet_append payload _ _ hnoexp]
      unfold jsGetObj
      rw [jsLookup_append_last payload _ _ hnoexp]
      rfl
    simp [jsGet, this]
  rw [hget]
  simp only [pure_bind]
  dsimp only
  have hexpired : (truthy (.num ((now + 3600 * 1000 : Nat) : Int)) &&
      decide ((now : Int) > ((now + 3600 * 1000 : Nat) : Int))) = false := by
    have h1 : ¬ (now : Int) > ((now + 3600 * 1000 : Nat) : Int) := by
      push_cast
      omega
    simp [h1]
  rw [if_neg (by simp [hexpired])]
  rfl

/-- Toy builtin bundle: serialization constant `"D"`, base64 constant
`"E"`, digest constant `"ff"`, parse returning
`{uid: 7, exp: 3601000}` — a consistent instantiation for the inputs of
the round-trip witness. -/
def toyPrimsRoundtrip : TokenPrims :=
  { stringifyObj := fun _ => codes "D"
    parse := fun _ =>
      .ok (.obj [(codes "uid", .num 7), (codes "exp", .num 3601000)])
    b64encode := fun _ => codes "E"
    b64decode := fun _ => codes "D"
    hmacHex := fun _ _ => codes "ff" }

/-- Witness for the amended C6 at a concrete payload without `exp`. -/
theorem token_roundtrip_witness :
    verifySecureToken toyPrimsRoundtrip none
        (generateSecureToken toyPrimsRoundtrip none
          [(codes "uid", .num 7)] 3600 1000) 1000 =
      { valid := true, error := none,
        data := some (.obj [(codes "uid", .num 7),
                            (codes "exp", .num 3601000)]) } ∧
    jsRemoveKey [(codes "uid", .num 7), (codes "exp", .num 3601000)]
        (codes "exp") = [(codes "uid", .num 7)] :=
  token_roundtrip toyPrimsRoundtrip none [(codes "uid", .num 7)]
    [(codes "uid", .num 7), (codes "exp", .num 3601000)] 1000
    rfl rfl rfl rfl (by decide) (by decide) (by decide) (by decide)

/-- Toy builtin bundle for a payload that itself carries an `exp` key. -/
def toyPrimsExpClash : TokenPrims :=
  { stringifyObj := fun _ => codes "D"
    parse := fun _ => .ok (.obj [(codes "exp", .num 3601000)])
    b64encode := fun _ => codes "E"
    b64decode := fun _ => codes "D"
    hmacHex := fun _ _ => codes "ff" }

/-- Counterexample to C6 as stated ("for any JSON-serializable claims
map"): for the claims map `{exp: 5}` the spread `{...payload, exp}`
overwrites the caller's `exp`, so although verification succeeds, the
recovered claims minus the injected `exp` are `{}`, which does not equal
the original claims. -/
theorem token_roundtrip_exp_counterexample :
    verifySecureToken toyPrimsExpClash none
        (generateSecureToken toyPrimsExpClash none
          [(codes "exp", .num 5)] 3600 1000) 1000 =
      { valid := true, error := none,
        data := some (.obj [(codes "exp", .num 3601000)]) } ∧
    jsRemoveKey [(codes "exp", .num 3601000)] (codes "exp") = [] ∧
    ([] : List (Str × JsVal)) ≠ [(codes "exp", .num 5)] := by
  refine ⟨rfl, rfl, by simp⟩

/-! Evaluation lemmas for `verifySecureToken`, one per outcome. -/

/-- A token whose split leaves `dataB64` or `signature` falsy is rejected
with `'Invalid token format'`. -/
theorem verifyToken_eval_format (prims : TokenPrims) (secretEnv : Option Str)
    (token : Str) (now : Nat)
    (hbad : (jsSplit 46 token).get? 0 = none ∨
      ((jsSplit 46 token).get? 0).getD [] = [] ∨
      (jsSplit 46 token).get? 1 = none ∨
      ((jsSplit 46 token).get? 1).getD [] = []) :
    verifySecureToken prims secretEnv token now =
      { valid := false, error := some (codes "Invalid token format"),
        data := none } := by
  unfold verifySecureToken verifyTokenTry
  rw [if_pos hbad]
  rfl

/-- A token splitting as `enc :: s0 :: ss` (both truthy) whose recomputed
digest differs from `s0` is rejected with `'Invalid signature'` (provided
the decoded data segment parses). -/
theorem verifyToken_eval_sig (prims : TokenPrims) (secretEnv : Option Str)
    (token : Str) (now : Nat) (enc s0 : Str) (ss : List Str) (v : JsVal)
    (hsplit : jsSplit 46 token = enc :: s0 :: ss)
    (hencne : enc ≠ []) (hs0ne : s0 ≠ [])
    (hparse : prims.parse (prims.b64decode enc) = .ok v)
    (hne : s0 ≠ prims.hmacHex (tokenSecret secretEnv) (prims.b64decode enc)) :
    verifySecureToken prims secretEnv token now =
      { valid := false, error := some (codes "Invalid signature"),
        data := none } := by
  unfold verifySecureToken verifyTokenTry
  rw [hsplit]
  dsimp only [List.get?, Option.getD]
  rw [if_neg (by simp [hencne, hs0ne]), hparse]
  simp only [pure_bind, except_bind_ok]
  rw [if_pos hne]
  rfl

/-- A well-signed token whose decoded claims carry a truthy numeric `exp`
in the past is rejected with `'Token expired'`. -/
theorem verifyToken_eval_expired (prims : TokenPrims)
    (secretEnv : Option Str) (token : Str) (now : Nat) (enc sig : Str)
    (ss : List Str) (fields : List (Str × JsVal)) (e : Int)
    (hsplit : jsSplit 46 token = enc :: sig :: ss)
    (hencne : enc ≠ []) (hsigne : sig ≠ [])
    (hparse : prims.parse (prims.b64decode enc) = .ok (.obj fields))
    (hsig : sig = prims.hmacHex (tokenSecret secretEnv)
      (prims.b64decode enc))
    (hexp : jsLookup fields (codes "exp") = some (.num e))
    (he0 : e ≠ 0) (hgt : (now : Int) > e) :
    verifySecureToken prims secretEnv token now =
      { valid := false, error := some (codes "Token expired"),
        data := none } := by
  unfold verifySecureToken verifyTokenTry
  rw [hsplit]
  dsimp only [List.get?, Option.getD]
  rw [if_neg (by simp [hencne, hsigne]), hparse]
  simp only [pure_bind, except_bind_ok]
  rw [if_neg (by simp [hsig])]
  have hget : jsGet (.obj fields) (codes "exp") = pure (.num e) := by
    simp [jsGet, jsGetObj, hexp]
  rw [hget]
  simp only [pure_bind]
  dsimp only
  rw [if_pos (by simp [truthy, he0, hgt])]
  rfl

/-- C7: `verifySecureToken` fails closed. (1) When the token does not
split into a truthy data segment and a truthy signature segment, it
returns `valid = false` with `'Invalid token format'`. (2) When the
recomputed HMAC hex digest differs from the signature segment (and the
data segment decodes and parses), it returns `'Invalid signature'`.
(3) In particular, replacing the signature segment of a valid token by any
same-length different string — e.g. flipping one character — yields
`valid = false`. (4) When the digest matches and the decoded claims carry
a truthy numeric `exp` with `now > exp`, it returns `'Token expired'`. -/
theorem verifySecureToken_fails_closed :
    (∀ (prims : TokenPrims) (secretEnv : Option Str) (token : Str)
        (now : Nat),
      ((jsSplit 46 token).get? 0 = none ∨
        ((jsSplit 46 token).get? 0).getD [] = [] ∨
        (jsSplit 46 token).get? 1 = none ∨
        ((jsSplit 46 token).get? 1).getD [] = []) →
      verifySecureToken prims secretEnv token now =
        { valid := false, error := some (codes "Invalid token format"),
          data := none }) ∧
    (∀ (prims : TokenPrims) (secretEnv : Option Str) (enc sig : Str)
        (now : Nat) (v : JsVal),
      46 ∉ enc → enc ≠ [] → 46 ∉ sig → sig ≠ [] →
      prims.parse (prims.b64decode enc) = .ok v →
      sig ≠ prims.hmacHex (tokenSecret secretEnv) (prims.b64decode enc) →
      verifySecureToken prims secretEnv (enc ++ codes "." ++ sig) now =
        { valid := false, error := some (codes "Invalid signature"),
          data := none }) ∧
    (∀ (prims : TokenPrims) (secretEnv : Option Str) (enc sig' : Str)
        (now : Nat) (v : JsVal),
      46 ∉ enc → enc ≠ [] →
      prims.parse (prims.b64decode enc) = .ok v →
      sig'.length = (prims.hmacHex (tokenSecret secretEnv)
        (prims.b64decode enc)).length →
      sig' ≠ prims.hmacHex (tokenSecret secretEnv) (prims.b64decode enc) →
      (verifySecureToken prims secretEnv (enc ++ codes "." ++ sig')
        now).valid = false) ∧
    (∀ (prims : TokenPrims) (secretEnv : Option Str) (enc : Str)
        (now : Nat) (fields : List (Str × JsVal)) (e : Int),
      46 ∉ enc → enc ≠ [] →
      46 ∉ prims.hmacHex (tokenSecret secretEnv) (prims.b64decode enc) →
      prims.hmacHex (tokenSecret secretEnv) (prims.b64decode enc) ≠ [] →
      prims.parse (prims.b64decode enc) = .ok (.obj fields) →
      jsLookup fields (codes "exp") = some (.num e) →
      e ≠ 0 → (now : Int) > e →
      verifySecureToken prims secretEnv (enc ++ codes "." ++
        prims.hmacHex (tokenSecret secretEnv) (prims.b64decode enc)) now =
        { valid := false, error := some (codes "Token expired"),
          data := none }) := by
  have hsplitTok : ∀ (enc sig : Str), 46 ∉ enc → 46 ∉ sig →
      jsSplit 46 (enc ++ codes "." ++ sig) = [enc, sig] := by
    intro enc sig hencdot hsigdot
    rw [List.append_assoc]
    have : (codes "." ++ sig : Str) = 46 :: sig := rfl
    rw [this, jsSplit_append 46 _ _ hencdot, jsSplit_no_sep 46 _ hsigdot]
  have hsplitHalf : ∀ (enc sig : Str), 46 ∉ enc →
      jsSplit 46 (enc ++ codes "." ++ sig) = enc :: jsSplit 46 sig := by
    intro enc sig hencdot
    rw [List.append_assoc]
    have : (codes "." ++ sig : Str) = 46 :: sig := rfl
    rw [this, jsSplit_append 46 _ _ hencdot]
  refine ⟨?_, ?_, ?_, ?_⟩
  · intro prims secretEnv token now hbad
    exact verifyToken_eval_format prims secretEnv token now hbad
  · intro prims secretEnv enc sig now v hencdot hencne hsigdot hsigne
      hparse hne
    exact verifyToken_eval_sig prims secretEnv _ now enc sig [] v
      (hsplitTok enc sig hencdot hsigdot) hencne hsigne hparse hne
  · intro prims secretEnv enc sig' now v hencdot hencne hparse hlen hne
    by_cases hdot : 46 ∈ sig'
    · rcases hsp : jsSplit 46 sig' with _ | ⟨s0, ss⟩
      · exact absurd hsp (jsSplit_ne_nil 46 sig')
      · have hs0 : s0 = sig'.takeWhile (fun c => ¬ c = 46) := by
          have hh := jsSplit_head 46 sig'
          rw [hsp] at hh
          simpa [List.head?] using hh
        by_cases hs0e : s0 = []
        · have hbad : (jsSplit 46 (enc ++ codes "." ++ sig')).get? 0 =
              none ∨
              ((jsSplit 46 (enc ++ codes "." ++ sig')).get? 0).getD [] =
                [] ∨
              (jsSplit 46 (enc ++ codes "." ++ sig')).get? 1 = none ∨
              ((jsSplit 46 (enc ++ codes "." ++ sig')).get? 1).getD [] =
                [] := by
            rw [hsplitHalf enc sig' hencdot, hsp, hs0e]
            right; right; right
            rfl
          rw [verifyToken_eval_format prims secretEnv _ now hbad]
        · have hlt : s0.length < sig'.length := by
            rw [hs0]
            exact takeWhile_sep_length_lt 46 sig' hdot
          have hne0 : s0 ≠ prims.hmacHex (tokenSecret secretEnv)
              (prims.b64decode enc) := by
            intro hcontra
            have : s0.length = sig'.length := by
              rw [hcontra, ← hlen]
            omega
          rw [verifyToken_eval_sig prims secretEnv _ now enc s0 ss v
            (by rw [hsplitHalf enc sig' hencdot, hsp]) hencne hs0e
            hparse hne0]
    · have hs'ne : sig' ≠ [] := by
        intro hcontra
        apply hne
        subst hcontra
        have : (prims.hmacHex (tokenSecret secretEnv)
            (prims.b64decode enc)).length = 0 := by
          simpa using hlen.symm
        exact (List.length_eq_zero.mp this).symm
      rw [verifyToken_eval_sig prims secretEnv _ now enc sig' [] v
        (hsplitTok enc sig' hencdot hdot) hencne hs'ne hparse hne]
  · intro prims secretEnv enc now fields e hencdot hencne hsigdot hsigne
      hparse hexp he0 hgt
    exact verifyToken_eval_expired prims secretEnv _ now enc _ [] fields e
      (hsplitTok enc _ hencdot hsigdot) hencne hsigne hparse rfl hexp
      he0 hgt

/-- Toy builtin bundle whose parse result carries an expired `exp`. -/
def toyPrimsExpired : TokenPrims :=
  { stringifyObj := fun _ => codes "D"
    parse := fun _ => .ok (.obj [(codes "exp", .num 5)])
    b64encode := fun _ => codes "E"
    b64decode := fun _ => codes "D"
    hmacHex := fun _ _ => codes "ff" }

/-- Witness for C7: concrete instances of all four fail-closed cases —
a dot-free token (format), a wrong digest (invalid signature), a one
character flip of the signature segment (tamper), and an expired `exp`. -/
theorem verifySecureToken_fails_closed_witness :
    verifySecureToken toyPrimsRoundtrip none (codes "nodot") 0 =
      { valid := false, error := some (codes "Invalid token format"),
        data := none } ∧
    verifySecureToken toyPrimsRoundtrip none
        (codes "E" ++ codes "." ++ codes "gg") 0 =
      { valid := false, error := some (codes "Invalid signature"),
        data := none } ∧
    (verifySecureToken toyPrimsRoundtrip none
        (codes "E" ++ codes "." ++ codes "fg") 0).valid = false ∧
    verifySecureToken toyPrimsExpired none
        (codes "E" ++ codes "." ++ codes "ff") 10 =
      { valid := false, error := some (codes "Token expired"),
        data := none } := by
  refine ⟨?_, ?_, ?_, ?_⟩
  · exact verifySecureToken_fails_closed.1 toyPrimsRoundtrip none
      (codes "nodot") 0 (by decide)
  · exact verifySecureToken_fails_closed.2.1 toyPrimsRoundtrip none
      (codes "E") (codes "gg") 0
      (.obj [(codes "uid", .num 7), (codes "exp", .num 3601000)])
      (by decide) (by decide) (by decide) (by decide) rfl (by decide)
  · exact verifySecureToken_fails_closed.2.2.1 toyPrimsRoundtrip none
      (codes "E") (codes "fg") 0
      (.obj [(codes "uid", .num 7), (codes "exp", .num 3601000)])
      (by decide) (by decide) rfl (by decide) (by decide)
  · have h := verifySecureToken_fails_closed.2.2.2 toyPrimsExpired none
      (codes "E") 10 [(codes "exp", .num 5)] 5
      (by decide) (by decide) (by decide) (by decide) rfl rfl
      (by decide) (by decide)
    exact h

end AuthorKit
